import Mathlib

/-!
Shallow embedding of the shooting-competition game state machine
(`src/state/game.ts`) together with the invariant helper
(`src/utils/invariant.ts`).

JavaScript objects with string keys (the `attempts` record of a round and
the `winsByPlayer` tally of `checkGameOver`) are modelled as
insertion-ordered association lists, matching `for ... in` enumeration
order for non-numeric keys.  Thrown exceptions (`invariant`, explicit
`throw`) are modelled with `Except String`.  The random draws of
`simulate` are modelled by an explicit `draws` function giving the value
of `Math.round(Math.random() * 100)` used for attempt slot `i`; the fresh
uuid of a newly created round is passed in as `newId`.
-/

namespace Shooting

structure Player where
  id : String
  name : String
  percentage : Nat
  controlled : Bool
deriving DecidableEq

/-- One scoring round.  `attempts` maps each player id to the ordered
sequence of outcomes: `some true` = make, `some false` = miss,
`none` = pending (the source's `boolean | null`). -/
structure Round where
  id : String
  name : String
  order : List String
  attempts : List (String × List (Option Bool))
  activePlayer : Nat
  winner : Option String
deriving DecidableEq

structure Game where
  id : String
  players : List Player
  rounds : List Round
  winner : Option Player
  bestOf : Nat
  attempts : Nat
  activeRound : Nat
deriving DecidableEq

inductive Action where
  | simulate
  | make
  | miss
  | start (players : List Player) (attempts : Nat) (bestOf : Nat)
deriving DecidableEq

deriving instance DecidableEq for Except

/-- Lookup in the `attempts` record: `round.attempts[playerId]`,
`undefined` becoming `none`. -/
def lookupAtt (m : List (String × List (Option Bool))) (k : String) :
    Option (List (Option Bool)) :=
  match m.find? (fun e => e.1 = k) with
  | some e => some e.2
  | none => none

/-- In-place update of the array stored under an existing key of the
`attempts` record (key order is preserved, as for a JS object). -/
def setAtt (m : List (String × List (Option Bool))) (k : String)
    (v : List (Option Bool)) : List (String × List (Option Bool)) :=
  m.map (fun e => if e.1 = k then (e.1, v) else e)

def keysOf (m : List (String × List (Option Bool))) : List String :=
  m.map (fun e => e.1)

/-- `getActiveRound`: `game.rounds[game.activeRound]` guarded by
`invariant`. -/
def getActiveRound (g : Game) : Except String Round :=
  match g.rounds[g.activeRound]? with
  | some r => Except.ok r
  | none => Except.error ("Round " ++ toString g.activeRound ++ " not found.")

/-- `getActivePlayer`: looks up `round.order[round.activePlayer]` in the
roster; an out-of-range index or an unknown id both hit the `invariant`. -/
def getActivePlayer (g : Game) : Except String Player :=
  match getActiveRound g with
  | Except.error e => Except.error e
  | Except.ok round =>
    match g.players.find? (fun p => round.order[round.activePlayer]? = some p.id) with
    | some p => Except.ok p
    | none => Except.error ("Player " ++ toString round.activePlayer ++ " not found.")

/-- `randomMake`: `random <= percentage` where `random` is the sampled
value `Math.round(Math.random() * 100)`. -/
def randomMake (percentage : Nat) (random : Nat) : Bool :=
  random ≤ percentage

/-- The fill loop of the `simulate` handler: every pending slot is filled
with `randomMake`, slot `i` consuming the draw `draws i`. -/
def fillPending (draws : Nat → Nat) (percentage : Nat) :
    Nat → List (Option Bool) → List (Option Bool)
  | _, [] => []
  | i, a :: rest =>
    (match a with
      | some b => some b
      | none => some (randomMake percentage (draws i))) ::
      fillPending draws percentage (i + 1) rest

/-- The per-player total of `checkWinners`: `none` models the early
`return []` taken as soon as a pending attempt is seen, otherwise the
number of makes. -/
def countMakes : List (Option Bool) → Option Nat
  | [] => some 0
  | none :: _ => none
  | some b :: rest =>
    match countMakes rest with
    | none => none
    | some n => some (if b then n + 1 else n)

/-- The accumulation loop of `checkWinners` over the entries of the
`attempts` record, with the running `max` and `winner` accumulator. -/
def checkWinnersAux : List (String × List (Option Bool)) → Nat → List String → List String
  | [], _, winner => winner
  | e :: rest, max, winner =>
    match countMakes e.2 with
    | none => []
    | some total =>
      if total = max then checkWinnersAux rest max (winner ++ [e.1])
      else if total > max then checkWinnersAux rest total [e.1]
      else checkWinnersAux rest max winner

/-- `checkWinners(game)`. -/
def checkWinners (g : Game) : Except String (List String) :=
  match getActiveRound g with
  | Except.error e => Except.error e
  | Except.ok round => Except.ok (checkWinnersAux round.attempts 0 [])

/-- `createNextRound(game)`: reversed order of the last round (or roster
order for the first round), fresh all-pending attempts, active player 0,
and the new round becomes the active round. -/
def createNextRound (newId : String) (g : Game) : Game :=
  let order :=
    match g.rounds.getLast? with
    | some last => last.order.reverse
    | none => g.players.map (fun p => p.id)
  { g with
    activeRound := g.rounds.length
    rounds := g.rounds ++
      [{ id := newId
         winner := none
         name := "Round #" ++ toString (g.rounds.length + 1)
         order := order
         activePlayer := 0
         attempts := g.players.map (fun p => (p.id, List.replicate g.attempts none)) }] }

/-- `overtime(game)`: pushes one extra pending slot onto every player's
sequence of the active round. -/
def overtime (g : Game) : Except String Game :=
  match getActiveRound g with
  | Except.error e => Except.error e
  | Except.ok round =>
    Except.ok { g with
      rounds := g.rounds.set g.activeRound
        { round with attempts := round.attempts.map (fun e => (e.1, e.2 ++ [none])) } }

/-- `hasAttemptsLeft(round)`. -/
def hasAttemptsLeft (r : Round) : Bool :=
  r.attempts.any (fun e => e.2.any (fun a => a.isNone))

/-- `Math.ceil(bestOf / 2)` on natural numbers. -/
def winsToFinish (bestOf : Nat) : Nat :=
  (bestOf + 1) / 2

/-- Read a player's tally out of the `winsByPlayer` record (0 when the
key is absent). -/
def countTally : List (String × Nat) → String → Nat
  | [], _ => 0
  | e :: rest, w => if e.1 = w then e.2 else countTally rest w

/-- `winsByPlayer[w]++` respectively `winsByPlayer[w] = 1`. -/
def bumpTally : List (String × Nat) → String → List (String × Nat)
  | [], w => [(w, 1)]
  | e :: rest, w =>
    if e.1 = w then (e.1, e.2 + 1) :: rest else e :: bumpTally rest w

/-- The scanning loop of `checkGameOver`: rounds are visited in order, a
truthy (non-empty) `winner` bumps that player's tally, and the moment a
tally equals `winsToFinish` the winning player is looked up in the roster
(the `invariant` turning a failed lookup into an error). -/
def checkGameOverAux (players : List Player) (need : Nat) :
    List Round → List (String × Nat) → Except String (Option Player)
  | [], _ => Except.ok none
  | r :: rest, tally =>
    match r.winner with
    | none => checkGameOverAux players need rest tally
    | some w =>
      if w = "" then checkGameOverAux players need rest tally
      else
        if countTally tally w + 1 = need then
          match players.find? (fun p => p.id = w) with
          | some p => Except.ok (some p)
          | none => Except.error ("Player not found with id " ++ w)
        else checkGameOverAux players need rest (bumpTally tally w)

/-- `checkGameOver(game)`: returns the updated game and the boolean the
source returns. -/
def checkGameOver (g : Game) : Except String (Game × Bool) :=
  match checkGameOverAux g.players (winsToFinish g.bestOf) g.rounds [] with
  | Except.error e => Except.error e
  | Except.ok none => Except.ok (g, false)
  | Except.ok (some p) => Except.ok ({ g with winner := some p }, true)

/-- `endRound(game)`.  The `Option Round` threaded through the middle
match distinguishes the early `return` after a game-over (`none`) from
the fall-through (`some roundCur`, the draft alias of the round that was
active at entry, as mutated so far). -/
def endRound (newId : String) (g : Game) : Except String Game :=
  match checkWinners g with
  | Except.error e => Except.error e
  | Except.ok winners =>
    match getActiveRound g with
    | Except.error e => Except.error e
    | Except.ok round =>
      if winners.length > 1 then
        overtime g
      else
        match
          (if winners.length = 1 then
            let round1 := { round with winner := winners[0]? }
            let g1 := { g with rounds := g.rounds.set g.activeRound round1 }
            match checkGameOver g1 with
            | Except.error e => Except.error e
            | Except.ok (g2, true) => Except.ok (none, g2)
            | Except.ok (g2, false) =>
              Except.ok (some round1, createNextRound newId g2)
          else Except.ok (some round, g)) with
        | Except.error e => Except.error e
        | Except.ok (none, gf) => Except.ok gf
        | Except.ok (some roundCur, gf) =>
          if hasAttemptsLeft roundCur then
            Except.ok { gf with
              rounds := gf.rounds.set g.activeRound
                { roundCur with
                  activePlayer := (roundCur.activePlayer + 1) % roundCur.order.length } }
          else
            if (roundCur.activePlayer : Int) = (roundCur.order.length : Int) - 1 ∧
                g.activeRound + 1 < gf.rounds.length then
              Except.ok { gf with
                rounds := gf.rounds.set g.activeRound { roundCur with activePlayer := 0 }
                activeRound := g.activeRound + 1 }
            else Except.ok gf

/-- The shared body of the `make` / `miss` handler (`isMake` records which
of the two action types was dispatched). -/
def markAction (newId : String) (isMake : Bool) (state : Game) : Except String Game :=
  match getActiveRound state, getActivePlayer state with
  | Except.error e, _ => Except.error e
  | Except.ok _, Except.error e => Except.error e
  | Except.ok round, Except.ok player =>
    if player.controlled = false then Except.ok state
    else
      match lookupAtt round.attempts player.id with
      | none =>
        Except.error ("Player " ++ player.id ++ " not found in round " ++ round.id ++ ".")
      | some makes =>
        match makes.findIdx? (fun a => a.isNone) with
        | none => Except.error "Invalid action, no more makes left"
        | some nextMake =>
          let state1 := { state with
            rounds := state.rounds.set state.activeRound
              { round with
                attempts := setAtt round.attempts player.id
                  (makes.set nextMake (some isMake)) } }
          if nextMake + 1 = makes.length then endRound newId state1
          else Except.ok state1

/-- The `simulate` handler. -/
def simulateAction (draws : Nat → Nat) (newId : String) (state : Game) :
    Except String Game :=
  match getActiveRound state, getActivePlayer state with
  | Except.error e, _ => Except.error e
  | Except.ok _, Except.error e => Except.error e
  | Except.ok round, Except.ok player =>
    if player.controlled then Except.ok state
    else
      match lookupAtt round.attempts player.id with
      | none =>
        Except.error ("Player " ++ player.id ++ " not found in round " ++ round.id ++ ".")
      | some makes =>
        endRound newId { state with
          rounds := state.rounds.set state.activeRound
            { round with
              attempts := setAtt round.attempts player.id
                (fillPending draws player.percentage 0 makes) } }

/-- `gameReducer(state, action)`. -/
def gameReducer (draws : Nat → Nat) (newId : String) (state : Game) :
    Action → Except String Game
  | Action.simulate => simulateAction draws newId state
  | Action.make => markAction newId true state
  | Action.miss => markAction newId false state
  | Action.start players attempts bestOf =>
    Except.ok (createNextRound newId
      { state with players := players, attempts := attempts, bestOf := bestOf })

/-- Number of concluded rounds won by player `w`. -/
def countWins (rs : List Round) (w : String) : Nat :=
  rs.countP (fun r => r.winner = some w)

/-- Decidable form of "no player has yet collected `need` round wins". -/
def belowNeed (rs : List Round) (need : Nat) : Bool :=
  rs.all (fun r =>
    match r.winner with
    | none => true
    | some w => decide (w = "") || decide (countWins rs w < need))

/-- Decidable form of "no player other than `w` has yet collected `need`
round wins". -/
def othersBelow (rs : List Round) (w : String) (need : Nat) : Bool :=
  rs.all (fun r =>
    match r.winner with
    | none => true
    | some k => decide (k = "") || decide (k = w) || decide (countWins rs k < need))

/-- Keys of an association list are pairwise distinct (JS object keys). -/
def nodupIds : List String → Bool
  | [] => true
  | x :: rest => !(rest.contains x) && nodupIds rest

/-- The invariant of §3 of the spec, in its decidable part: every roster
player id is a key of every round's `attempts` record, the keys are
exactly roster ids, all attempt sequences of one round have equal length,
and (as for any JS object) keys are unique, both in the records and in
the roster. -/
def roundKeysCover (g : Game) (r : Round) : Bool :=
  g.players.all (fun p => (keysOf r.attempts).contains p.id)

def roundKeysFromRoster (g : Game) (r : Round) : Bool :=
  (keysOf r.attempts).all (fun k => g.players.any (fun p => p.id = k))

def lensEqB (m : List (String × List (Option Bool))) : Bool :=
  m.all (fun e1 => m.all (fun e2 => e1.2.length = e2.2.length))

def roundLensEq (r : Round) : Bool :=
  lensEqB r.attempts

def roundWinnerInRoster (g : Game) (r : Round) : Bool :=
  match r.winner with
  | none => true
  | some w => g.players.any (fun p => p.id = w)

def roundOk (g : Game) (r : Round) : Bool :=
  roundKeysCover g r && (roundLensEq r &&
    (nodupIds (keysOf r.attempts) && (roundKeysFromRoster g r &&
      roundWinnerInRoster g r)))

def stateInvariant (g : Game) : Bool :=
  nodupIds (g.players.map (fun p => p.id)) && g.rounds.all (fun r => roundOk g r)

/-- The active round's `winner`, when set, is the unique leader computed
by `checkWinners`; any state actually produced by the reducer satisfies
this. -/
def winnerConsistent (g : Game) : Bool :=
  match g.rounds[g.activeRound]? with
  | none => true
  | some r =>
    match r.winner with
    | none => true
    | some w => decide (checkWinnersAux r.attempts 0 [] = [w])

theorem countMakes_eq_none {l : List (Option Bool)} :
    countMakes l = none ↔ none ∈ l := by
  induction l with
  | nil => simp [countMakes]
  | cons a rest ih =>
    cases a with
    | none => simp [countMakes]
    | some b =>
      simp only [countMakes, List.mem_cons]
      cases h : countMakes rest with
      | none => simpa [h] using ih
      | some n => simp only [h] at ih ⊢; simpa using ih

theorem checkWinnersAux_pending {m : List (String × List (Option Bool))}
    (h : ∃ e ∈ m, countMakes e.2 = none) :
    ∀ mx acc, checkWinnersAux m mx acc = [] := by
  induction m with
  | nil => simp at h
  | cons e rest ih =>
    intro mx acc
    rcases h with ⟨e0, he0, hc⟩
    rcases List.mem_cons.mp he0 with rfl | hmem
    · simp [checkWinnersAux, hc]
    · cases h2 : countMakes e.2 with
      | none => simp [checkWinnersAux, h2]
      | some total =>
        have ih' := ih ⟨e0, hmem, hc⟩
        by_cases ht : total = mx
        · simp [checkWinnersAux, h2, ht, ih']
        · by_cases ht2 : total > mx
          · simp [checkWinnersAux, h2, ht, ht2, ih']
          · simp [checkWinnersAux, h2, ht, ht2, ih']

theorem checkWinnersAux_no_pending {m : List (String × List (Option Bool))}
    {mx : Nat} {acc res : List String} (h : checkWinnersAux m mx acc = res)
    (hne : res ≠ []) : ∀ e ∈ m, countMakes e.2 ≠ none := by
  intro e he hc
  exact hne ((checkWinnersAux_pending ⟨e, he, hc⟩ mx acc) ▸ h.symm)

theorem checkWinnersAux_mem {m : List (String × List (Option Bool))} :
    ∀ {mx : Nat} {acc res : List String}, checkWinnersAux m mx acc = res →
      ∀ x ∈ res, x ∈ acc ∨ x ∈ keysOf m := by
  induction m with
  | nil =>
    intro mx acc res h x hx
    simp only [checkWinnersAux] at h
    exact Or.inl (h ▸ hx)
  | cons e rest ih =>
    intro mx acc res h x hx
    simp only [checkWinnersAux] at h
    cases h2 : countMakes e.2 with
    | none => simp only [h2] at h; simp [← h] at hx
    | some total =>
      simp only [h2] at h
      by_cases ht : total = mx
      · rw [if_pos ht] at h
        rcases ih h x hx with hacc | hkeys
        · rcases List.mem_append.mp hacc with h3 | h3
          · exact Or.inl h3
          · simp only [List.mem_singleton] at h3
            exact Or.inr (by simp [keysOf, h3])
        · exact Or.inr (by simp [keysOf] at hkeys ⊢; exact Or.inr hkeys)
      · rw [if_neg ht] at h
        by_cases ht2 : total > mx
        · rw [if_pos ht2] at h
          rcases ih h x hx with hacc | hkeys
          · simp only [List.mem_singleton] at hacc
            exact Or.inr (by simp [keysOf, hacc])
          · exact Or.inr (by simp [keysOf] at hkeys ⊢; exact Or.inr hkeys)
        · rw [if_neg ht2] at h
          rcases ih h x hx with hacc | hkeys
          · exact Or.inl hacc
          · exact Or.inr (by simp [keysOf] at hkeys ⊢; exact Or.inr hkeys)

theorem hasAttemptsLeft_eq_false {r : Round}
    (h : ∀ e ∈ r.attempts, countMakes e.2 ≠ none) : hasAttemptsLeft r = false := by
  simp only [hasAttemptsLeft, List.any_eq_false]
  intro e he hany
  rw [List.any_eq_true] at hany
  rcases hany with ⟨a, ha, hisn⟩
  rw [Option.isNone_iff_eq_none] at hisn
  exact h e he (countMakes_eq_none.mpr (hisn ▸ ha))

theorem hasAttemptsLeft_eq_true {r : Round} {e : String × List (Option Bool)}
    (he : e ∈ r.attempts) (hp : none ∈ e.2) : hasAttemptsLeft r = true := by
  simp only [hasAttemptsLeft, List.any_eq_true]
  exact ⟨e, he, none, hp, rfl⟩

theorem checkWinnersAux_ne_nil {m : List (String × List (Option Bool))}
    (hm : m ≠ []) (h : ∀ e ∈ m, countMakes e.2 ≠ none) :
    checkWinnersAux m 0 [] ≠ [] := by
  have key : ∀ (m2 : List (String × List (Option Bool))) mx (acc : List String),
      (∀ e ∈ m2, countMakes e.2 ≠ none) → acc ≠ [] →
      checkWinnersAux m2 mx acc ≠ [] := by
    intro m2
    induction m2 with
    | nil => intro mx acc _ hacc; simpa [checkWinnersAux] using hacc
    | cons e rest ih =>
      intro mx acc hall hacc
      cases h2 : countMakes e.2 with
      | none => exact absurd h2 (hall e (by simp))
      | some total =>
        have hall' : ∀ e2 ∈ rest, countMakes e2.2 ≠ none := by
          intro e2 he2; exact hall e2 (by simp [he2])
        by_cases ht : total = mx
        · simpa [checkWinnersAux, h2, ht] using ih mx (acc ++ [e.1]) hall' (by simp)
        · by_cases ht2 : total > mx
          · simpa [checkWinnersAux, h2, ht, ht2] using ih total [e.1] hall' (by simp)
          · simpa [checkWinnersAux, h2, ht, ht2] using ih mx acc hall' hacc
  cases m with
  | nil => exact absurd rfl hm
  | cons e rest =>
    cases h2 : countMakes e.2 with
    | none => exact absurd h2 (h e (by simp))
    | some total =>
      have hrest : ∀ e2 ∈ rest, countMakes e2.2 ≠ none := by
        intro e2 he2; exact h e2 (by simp [he2])
      by_cases ht : total = 0
      · simpa [checkWinnersAux, h2, ht] using key rest 0 [e.1] hrest (by simp)
      · have ht2 : total > 0 := Nat.pos_of_ne_zero ht
        simpa [checkWinnersAux, h2, ht, ht2] using key rest total [e.1] hrest (by simp)

theorem keysOf_setAtt {m : List (String × List (Option Bool))} {k : String}
    {v : List (Option Bool)} : keysOf (setAtt m k v) = keysOf m := by
  induction m with
  | nil => rfl
  | cons e rest ih =>
    by_cases h : e.1 = k <;> simp [keysOf, setAtt, h] <;>
      simpa [keysOf, setAtt] using ih

theorem keysOf_mapAppend {m : List (String × List (Option Bool))} :
    keysOf (m.map (fun e => (e.1, e.2 ++ [none]))) = keysOf m := by
  induction m with
  | nil => rfl
  | cons e rest ih => simp only [keysOf, List.map_cons] at ih ⊢; rw [ih]

theorem lookupAtt_setAtt_self {m : List (String × List (Option Bool))} {k : String}
    {v0 v : List (Option Bool)} (h : lookupAtt m k = some v0) :
    lookupAtt (setAtt m k v) k = some v := by
  induction m with
  | nil => simp [lookupAtt, List.find?] at h
  | cons e rest ih =>
    by_cases he : e.1 = k
    · simp [lookupAtt, setAtt, List.find?, he]
    · simp only [lookupAtt, setAtt, List.map_cons, if_neg he] at *
      rw [List.find?_cons_of_neg _ (by simpa using he)] at h
      rw [List.find?_cons_of_neg _ (by simpa using he)]
      exact ih h

theorem lookupAtt_setAtt_ne {m : List (String × List (Option Bool))} {k k' : String}
    {v : List (Option Bool)} (h : k' ≠ k) :
    lookupAtt (setAtt m k v) k' = lookupAtt m k' := by
  induction m with
  | nil => rfl
  | cons e rest ih =>
    by_cases he : e.1 = k
    · have : ¬(e.1 = k') := by rw [he]; exact fun hc => h hc.symm
      simp only [lookupAtt, setAtt, List.map_cons, if_pos he]
      rw [List.find?_cons_of_neg _ (by simpa using this),
        List.find?_cons_of_neg _ (by simpa using this)]
      simpa [lookupAtt, setAtt] using ih
    · simp only [lookupAtt, setAtt, List.map_cons, if_neg he]
      by_cases he2 : e.1 = k'
      · rw [List.find?_cons_of_pos _ (by simpa using he2),
          List.find?_cons_of_pos _ (by simpa using he2)]
      · rw [List.find?_cons_of_neg _ (by simpa using he2),
          List.find?_cons_of_neg _ (by simpa using he2)]
        simpa [lookupAtt, setAtt] using ih

theorem lookupAtt_mapAppend {m : List (String × List (Option Bool))} {k : String} :
    lookupAtt (m.map (fun e => (e.1, e.2 ++ [none]))) k =
      (lookupAtt m k).map (fun l => l ++ [none]) := by
  induction m with
  | nil => rfl
  | cons e rest ih =>
    by_cases he : e.1 = k
    · simp only [lookupAtt, List.map_cons]
      rw [List.find?_cons_of_pos _ (by simpa using he),
        List.find?_cons_of_pos _ (by simpa using he)]
      rfl
    · simp only [lookupAtt, List.map_cons]
      rw [List.find?_cons_of_neg _ (by simpa using he),
        List.find?_cons_of_neg _ (by simpa using he)]
      simpa [lookupAtt] using ih

theorem lookupAtt_isSome_of_mem {m : List (String × List (Option Bool))}
    {e : String × List (Option Bool)} (he : e ∈ m) :
    (lookupAtt m e.1).isSome = true := by
  induction m with
  | nil => simp at he
  | cons e0 rest ih =>
    by_cases h0 : e0.1 = e.1
    · simp [lookupAtt, List.find?_cons_of_pos, h0]
    · rcases List.mem_cons.mp he with rfl | hmem
      · exact absurd rfl h0
      · simp only [lookupAtt] at *
        rw [List.find?_cons_of_neg _ (by simpa using h0)]
        exact ih hmem

theorem nodupIds_cons {x : String} {rest : List String}
    (h : nodupIds (x :: rest) = true) : x ∉ rest ∧ nodupIds rest = true := by
  simp only [nodupIds, Bool.and_eq_true, Bool.not_eq_true'] at h
  refine ⟨fun hc => ?_, h.2⟩
  have hx : rest.contains x = true := by
    simpa [List.elem_iff] using hc
  rw [hx] at h
  exact Bool.true_eq_false.mp h.1

/-- With unique keys, every entry whose key is `k` carries the value
`lookupAtt` returns. -/
theorem lookupAtt_nodup_eq {m : List (String × List (Option Bool))} {k : String}
    {v : List (Option Bool)} (hnd : nodupIds (keysOf m) = true)
    (h : lookupAtt m k = some v) :
    ∀ e ∈ m, e.1 = k → e.2 = v := by
  induction m with
  | nil => simp
  | cons e0 rest ih =>
    have hcons := nodupIds_cons (show nodupIds (e0.1 :: keysOf rest) = true from hnd)
    intro e he hk
    rcases List.mem_cons.mp he with rfl | hmem
    · simp only [lookupAtt] at h
      rw [List.find?_cons_of_pos _ (by simpa using hk)] at h
      exact Option.some.inj h
    · by_cases h0 : e0.1 = k
      · exfalso
        apply hcons.1
        have hmem2 : e.1 ∈ keysOf rest := List.mem_map.mpr ⟨e, hmem, rfl⟩
        rwa [hk, ← h0] at hmem2
      · simp only [lookupAtt] at h
        rw [List.find?_cons_of_neg _ (by simpa using h0)] at h
        exact ih hcons.2 h e hmem hk

theorem setAtt_id {m : List (String × List (Option Bool))} {k : String}
    {v : List (Option Bool)} (h : ∀ e ∈ m, e.1 = k → e.2 = v) :
    setAtt m k v = m := by
  induction m with
  | nil => rfl
  | cons e rest ih =>
    have htail : setAtt rest k v = rest :=
      ih (fun e2 he2 hk2 => h e2 (by simp [he2]) hk2)
    by_cases he : e.1 = k
    · have h1 : ((e.1, v) : String × List (Option Bool)) = e := by
        rw [← h e (by simp) he]
      show (if e.1 = k then (e.1, v) else e) :: setAtt rest k v = e :: rest
      rw [if_pos he, h1, htail]
    · show (if e.1 = k then (e.1, v) else e) :: setAtt rest k v = e :: rest
      rw [if_neg he, htail]

theorem fillPending_isSome {draws : Nat → Nat} {p : Nat} :
    ∀ (i : Nat) (l : List (Option Bool)) (a : Option Bool),
      a ∈ fillPending draws p i l → a.isSome = true := by
  intro i l
  induction l generalizing i with
  | nil => simp [fillPending]
  | cons a0 rest ih =>
    intro a ha
    cases a0 with
    | none =>
      rcases List.mem_cons.mp ha with rfl | hmem
      · rfl
      · exact ih (i + 1) a hmem
    | some b =>
      rcases List.mem_cons.mp ha with rfl | hmem
      · rfl
      · exact ih (i + 1) a hmem

theorem fillPending_id {draws : Nat → Nat} {p : Nat} :
    ∀ (i : Nat) (l : List (Option Bool)), none ∉ l → fillPending draws p i l = l := by
  intro i l
  induction l generalizing i with
  | nil => intro _; rfl
  | cons a0 rest ih =>
    intro h
    cases a0 with
    | none => simp at h
    | some b =>
      simp only [fillPending]
      rw [ih (i + 1) (fun hc => h (List.mem_cons.mpr (Or.inr hc)))]

theorem fillPending_length {draws : Nat → Nat} {p : Nat} :
    ∀ (i : Nat) (l : List (Option Bool)), (fillPending draws p i l).length = l.length := by
  intro i l
  induction l generalizing i with
  | nil => rfl
  | cons a0 rest ih => simp only [fillPending, List.length_cons, ih (i + 1)]

theorem countTally_bumpTally_self {t : List (String × Nat)} {w : String} :
    countTally (bumpTally t w) w = countTally t w + 1 := by
  induction t with
  | nil => simp [bumpTally, countTally]
  | cons e rest ih =>
    by_cases he : e.1 = w
    · simp [bumpTally, countTally, he]
    · simp [bumpTally, countTally, he, ih]

theorem countTally_bumpTally_ne {t : List (String × Nat)} {w k : String}
    (h : k ≠ w) : countTally (bumpTally t w) k = countTally t k := by
  have hwk : ¬(w = k) := fun hc => h hc.symm
  induction t with
  | nil => simp [bumpTally, countTally, hwk]
  | cons e rest ih =>
    by_cases he : e.1 = w
    · have hek : ¬(e.1 = k) := by rw [he]; exact hwk
      simp [bumpTally, countTally, he, hek, hwk, ih]
    · by_cases he2 : e.1 = k
      · simp [bumpTally, countTally, he, he2, h, ih]
      · simp [bumpTally, countTally, he, he2, ih]

theorem countWins_cons {r : Round} {rest : List Round} {k : String} :
    countWins (r :: rest) k = countWins rest k + (if r.winner = some k then 1 else 0) := by
  simp [countWins, List.countP_cons]

theorem countWins_cons_ne {r : Round} {rest : List Round} {k : String}
    (h : r.winner ≠ some k) : countWins (r :: rest) k = countWins rest k := by
  simp [countWins_cons, h]

theorem countWins_cons_self {r : Round} {rest : List Round} {k : String}
    (h : r.winner = some k) : countWins (r :: rest) k = countWins rest k + 1 := by
  simp [countWins_cons, h]

theorem countWins_eq_zero {rs : List Round} {k : String}
    (h : ∀ r ∈ rs, ¬(r.winner = some k)) : countWins rs k = 0 := by
  rw [countWins, List.countP_eq_zero]
  intro r hr
  simpa using h r hr

/-- `checkGameOver` never hits its `invariant` when every recorded
(non-empty) winner id belongs to the roster. -/
theorem checkGameOverAux_isOk {players : List Player} {need : Nat} :
    ∀ (rs : List Round) (tally : List (String × Nat)),
      (∀ r ∈ rs, ∀ w, r.winner = some w → w = "" ∨
        (players.find? (fun p => p.id = w)).isSome = true) →
      ∃ o, checkGameOverAux players need rs tally = Except.ok o := by
  intro rs
  induction rs with
  | nil => exact fun tally _ => ⟨none, rfl⟩
  | cons r rest ih =>
    intro tally hwf
    have hrest : ∀ r2 ∈ rest, ∀ w, r2.winner = some w → w = "" ∨
        (players.find? (fun p => p.id = w)).isSome = true :=
      fun r2 h2 => hwf r2 (by simp [h2])
    cases hw : r.winner with
    | none => simpa [checkGameOverAux, hw] using ih tally hrest
    | some w =>
      by_cases hempty : w = ""
      · simpa [checkGameOverAux, hw, hempty] using ih tally hrest
      · rcases hwf r (by simp) w hw with h1 | h1
        · exact absurd h1 hempty
        · by_cases hn : countTally tally w + 1 = need
          · rcases Option.isSome_iff_exists.mp h1 with ⟨p, hp⟩
            exact ⟨some p, by simp [checkGameOverAux, hw, hempty, hn, hp]⟩
          · simpa [checkGameOverAux, hw, hempty, hn] using ih (bumpTally tally w) hrest

/-- `checkGameOver` reports no game over while every player's tally stays
below the threshold. -/
theorem checkGameOverAux_none {players : List Player} {need : Nat} :
    ∀ (rs : List Round) (tally : List (String × Nat)),
      (∀ k, ¬(k = "") → countTally tally k + countWins rs k < need) →
      checkGameOverAux players need rs tally = Except.ok none := by
  intro rs
  induction rs with
  | nil => intro tally _; rfl
  | cons r rest ih =>
    intro tally hlt
    cases hw : r.winner with
    | none =>
      have hlt2 : ∀ k, ¬(k = "") → countTally tally k + countWins rest k < need := by
        intro k hk
        have h2 := hlt k hk
        rwa [countWins_cons_ne (by simp [hw])] at h2
      simpa [checkGameOverAux, hw] using ih tally hlt2
    | some w =>
      by_cases hempty : w = ""
      · have hlt2 : ∀ k, ¬(k = "") → countTally tally k + countWins rest k < need := by
          intro k hk
          have h2 := hlt k hk
          rwa [countWins_cons_ne (by rw [hw, hempty]; intro hc; exact hk (Option.some.inj hc).symm)] at h2
        simpa [checkGameOverAux, hw, hempty] using ih tally hlt2
      · have h2 := hlt w hempty
        rw [countWins_cons_self hw] at h2
        have hn : ¬(countTally tally w + 1 = need) := by omega
        have hlt2 : ∀ k, ¬(k = "") →
            countTally (bumpTally tally w) k + countWins rest k < need := by
          intro k hk
          by_cases hkw : k = w
          · subst hkw
            rw [countTally_bumpTally_self]
            omega
          · have h3 := hlt k hk
            rw [countWins_cons_ne (by rw [hw]; intro hc; exact hkw (Option.some.inj hc).symm)] at h3
            rw [countTally_bumpTally_ne hkw]
            exact h3
        simpa [checkGameOverAux, hw, hempty, hn] using ih (bumpTally tally w) hlt2

/-- `checkGameOver` returns the roster entry of `w` exactly when `w` is
the first (and only) player whose tally reaches the threshold. -/
theorem checkGameOverAux_some {players : List Player} {need : Nat} {w : String} {p : Player}
    (hw0 : ¬(w = "")) (hf : players.find? (fun q => q.id = w) = some p) :
    ∀ (rs : List Round) (tally : List (String × Nat)),
      countTally tally w + countWins rs w = need →
      1 ≤ countWins rs w →
      (∀ k, ¬(k = "") → ¬(k = w) → countTally tally k + countWins rs k < need) →
      checkGameOverAux players need rs tally = Except.ok (some p) := by
  intro rs
  induction rs with
  | nil =>
    intro tally _ h1 _
    simp [countWins, List.countP_nil] at h1
  | cons r rest ih =>
    intro tally hT hW hO
    cases hw : r.winner with
    | none =>
      have hT2 := hT; rw [countWins_cons_ne (by simp [hw])] at hT2
      have hW2 := hW; rw [countWins_cons_ne (by simp [hw])] at hW2
      have hO2 : ∀ k, ¬(k = "") → ¬(k = w) →
          countTally tally k + countWins rest k < need := by
        intro k hk hkw
        have h3 := hO k hk hkw
        rwa [countWins_cons_ne (by simp [hw])] at h3
      simpa [checkGameOverAux, hw] using ih tally hT2 hW2 hO2
    | some w2 =>
      by_cases hempty : w2 = ""
      · have hne : ∀ k, ¬(k = "") → ¬(r.winner = some k) := by
          intro k hk hc
          rw [hw, hempty] at hc
          exact hk (Option.some.inj hc).symm
        have hT2 := hT; rw [countWins_cons_ne (hne w hw0)] at hT2
        have hW2 := hW; rw [countWins_cons_ne (hne w hw0)] at hW2
        have hO2 : ∀ k, ¬(k = "") → ¬(k = w) →
            countTally tally k + countWins rest k < need := by
          intro k hk hkw
          have h3 := hO k hk hkw
          rwa [countWins_cons_ne (hne k hk)] at h3
        simpa [checkGameOverAux, hw, hempty] using ih tally hT2 hW2 hO2
      · by_cases hw2w : w2 = w
        · rw [hw2w] at hw hempty
          rw [countWins_cons_self hw] at hT hW
          by_cases hz : countWins rest w = 0
          · have hn : countTally tally w + 1 = need := by omega
            simp [checkGameOverAux, hw, hempty, hn, hf]
          · have hn : ¬(countTally tally w + 1 = need) := by omega
            have hT2 : countTally (bumpTally tally w) w + countWins rest w = need := by
              rw [countTally_bumpTally_self]; omega
            have hW2 : 1 ≤ countWins rest w := by omega
            have hO2 : ∀ k, ¬(k = "") → ¬(k = w) →
                countTally (bumpTally tally w) k + countWins rest k < need := by
              intro k hk hkw
              have h3 := hO k hk hkw
              rw [countWins_cons_ne (by rw [hw]; intro hc; exact hkw (Option.some.inj hc).symm)] at h3
              rwa [countTally_bumpTally_ne hkw]
            simpa [checkGameOverAux, hw, hempty, hn] using
              ih (bumpTally tally w) hT2 hW2 hO2
        · have h2 := hO w2 hempty hw2w
          rw [countWins_cons_self hw] at h2
          have hn : ¬(countTally tally w2 + 1 = need) := by omega
          have hww2 : ¬(w = w2) := fun hc => hw2w hc.symm
          have hT2 : countTally (bumpTally tally w2) w + countWins rest w = need := by
            rw [countTally_bumpTally_ne hww2]
            rwa [countWins_cons_ne (by rw [hw]; intro hc; exact hw2w (Option.some.inj hc))] at hT
          have hW2 : 1 ≤ countWins rest w := by
            rwa [countWins_cons_ne (by rw [hw]; intro hc; exact hw2w (Option.some.inj hc))] at hW
          have hO2 : ∀ k, ¬(k = "") → ¬(k = w) →
              countTally (bumpTally tally w2) k + countWins rest k < need := by
            intro k hk hkw
            by_cases hkw2 : k = w2
            · subst hkw2
              rw [countTally_bumpTally_self]
              omega
            · have h3 := hO k hk hkw
              rw [countWins_cons_ne (by rw [hw]; intro hc; exact hkw2 (Option.some.inj hc).symm)] at h3
              rwa [countTally_bumpTally_ne hkw2]
          simpa [checkGameOverAux, hw, hempty, hn] using
            ih (bumpTally tally w2) hT2 hW2 hO2

theorem belowNeed_spec {rs : List Round} {need : Nat} (hb : belowNeed rs need = true)
    (hneed : 1 ≤ need) : ∀ k, ¬(k = "") → countWins rs k < need := by
  intro k hk
  by_cases hin : ∃ r ∈ rs, r.winner = some k
  · rcases hin with ⟨r, hr, hw⟩
    have hall := List.all_eq_true.mp hb r hr
    rw [hw] at hall
    simp only [Bool.or_eq_true, decide_eq_true_eq] at hall
    rcases hall with h1 | h1
    · exact absurd h1 hk
    · exact h1
  · push_neg at hin
    rw [countWins_eq_zero hin]
    exact hneed

theorem othersBelow_spec {rs : List Round} {w : String} {need : Nat}
    (hb : othersBelow rs w need = true) (hneed : 1 ≤ need) :
    ∀ k, ¬(k = "") → ¬(k = w) → countWins rs k < need := by
  intro k hk hkw
  by_cases hin : ∃ r ∈ rs, r.winner = some k
  · rcases hin with ⟨r, hr, hw2⟩
    have hall := List.all_eq_true.mp hb r hr
    rw [hw2] at hall
    simp only [Bool.or_eq_true, decide_eq_true_eq] at hall
    rcases hall with (h1 | h1) | h1
    · exact absurd h1 hk
    · exact absurd h1 hkw
    · exact h1
  · push_neg at hin
    rw [countWins_eq_zero hin]
    exact hneed

theorem getActiveRound_eq_ok {g : Game} {r : Round} :
    getActiveRound g = Except.ok r ↔ g.rounds[g.activeRound]? = some r := by
  unfold getActiveRound
  cases h : g.rounds[g.activeRound]? <;> simp

theorem getActivePlayer_ok_round {g : Game} {p : Player}
    (h : getActivePlayer g = Except.ok p) : ∃ r, getActiveRound g = Except.ok r := by
  unfold getActivePlayer at h
  cases hR : getActiveRound g with
  | error e => rw [hR] at h; exact Except.noConfusion h
  | ok r => exact ⟨r, rfl⟩

/-! Concrete states used by the witnesses. -/

def alice : Player := { id := "alice", name := "Alice", percentage := 60, controlled := true }

def bob : Player := { id := "bob", name := "Bob", percentage := 40, controlled := false }

def drawsZero : Nat → Nat := fun _ => 0

/-- The module-level initial state `GAME` (with a fixed id). -/
def initialGame : Game :=
  { id := "g", players := [], rounds := [], winner := none,
    bestOf := 3, attempts := 5, activeRound := 0 }

def roundW : Round :=
  { id := "r1", name := "Round #1", order := ["alice", "bob"],
    attempts := [("alice", [none, none]), ("bob", [none, none])],
    activePlayer := 1, winner := none }

def gameW : Game :=
  { id := "g", players := [alice, bob], rounds := [roundW],
    winner := none, bestOf := 3, attempts := 2, activeRound := 0 }

/-- Claim C10: from a state with no rounds (no `start` dispatched yet),
`make`, `miss` and `simulate` all raise the active-round invariant error
instead of returning the state unchanged. -/
theorem claim10_unstarted_actions_raise (draws : Nat → Nat) (newId : String) (g : Game)
    (hEmpty : g.rounds = []) :
    gameReducer draws newId g Action.make =
        Except.error ("Round " ++ toString g.activeRound ++ " not found.") ∧
      gameReducer draws newId g Action.miss =
        Except.error ("Round " ++ toString g.activeRound ++ " not found.") ∧
      gameReducer draws newId g Action.simulate =
        Except.error ("Round " ++ toString g.activeRound ++ " not found.") := by
  have hR : getActiveRound g =
      Except.error ("Round " ++ toString g.activeRound ++ " not found.") := by
    unfold getActiveRound
    rw [hEmpty]
    simp
  refine ⟨?_, ?_, ?_⟩ <;> simp [gameReducer, markAction, simulateAction, hR]

theorem claim10_witness :
    initialGame.rounds = [] ∧
      gameReducer drawsZero "r1" initialGame Action.make =
        Except.error ("Round " ++ toString initialGame.activeRound ++ " not found.") ∧
      gameReducer drawsZero "r1" initialGame Action.miss =
        Except.error ("Round " ++ toString initialGame.activeRound ++ " not found.") ∧
      gameReducer drawsZero "r1" initialGame Action.simulate =
        Except.error ("Round " ++ toString initialGame.activeRound ++ " not found.") :=
  ⟨rfl, claim10_unstarted_actions_raise drawsZero "r1" initialGame rfl⟩

/-- Claim C7: `make`/`miss` dispatched while the active player is not
controlled, and `simulate` dispatched while the active player is
controlled, return the input state unchanged (a silent no-op). -/
theorem claim7_noop_isolation (draws : Nat → Nat) (newId : String) (g : Game)
    {player : Player} (hP : getActivePlayer g = Except.ok player) (act : Action)
    (hAct : ((act = Action.make ∨ act = Action.miss) ∧ player.controlled = false) ∨
      (act = Action.simulate ∧ player.controlled = true)) :
    gameReducer draws newId g act = Except.ok g := by
  rcases getActivePlayer_ok_round hP with ⟨r, hR⟩
  rcases hAct with ⟨hmm, hc⟩ | ⟨hs, hc⟩
  · rcases hmm with rfl | rfl <;> simp [gameReducer, markAction, hR, hP, hc]
  · subst hs
    simp [gameReducer, simulateAction, hR, hP, hc]

theorem claim7_witness :
    getActivePlayer gameW = Except.ok bob ∧
      gameReducer drawsZero "n" gameW Action.make = Except.ok gameW :=
  ⟨rfl, claim7_noop_isolation drawsZero "n" gameW rfl Action.make
    (Or.inl ⟨Or.inl rfl, rfl⟩)⟩

/-- Claim C6: for an uncontrolled active player, one `simulate` action
fills every pending slot of that player in the active round (the filled
sequence contains no pending slot) and then unconditionally hands the
state to the `endRound` evaluation. -/
theorem claim6_simulate_fills_and_ends (draws : Nat → Nat) (newId : String) (g : Game)
    {round : Round} {player : Player} {makes : List (Option Bool)}
    (hR : getActiveRound g = Except.ok round)
    (hP : getActivePlayer g = Except.ok player)
    (hC : player.controlled = false)
    (hM : lookupAtt round.attempts player.id = some makes) :
    gameReducer draws newId g Action.simulate =
        endRound newId { g with
          rounds := g.rounds.set g.activeRound
            { round with
              attempts := setAtt round.attempts player.id
                (fillPending draws player.percentage 0 makes) } } ∧
      ∀ a ∈ fillPending draws player.percentage 0 makes, a.isSome = true := by
  constructor
  · simp [gameReducer, simulateAction, hR, hP, hC, hM]
  · exact fun a ha => fillPending_isSome 0 makes a ha

theorem claim6_witness :
    gameReducer drawsZero "n" gameW Action.simulate =
        endRound "n" { gameW with
          rounds := gameW.rounds.set gameW.activeRound
            { roundW with
              attempts := setAtt roundW.attempts bob.id
                (fillPending drawsZero bob.percentage 0 [none, none]) } } ∧
      ∀ a ∈ fillPending drawsZero bob.percentage 0 [none, none], a.isSome = true :=
  claim6_simulate_fills_and_ends drawsZero "n" gameW rfl rfl rfl rfl

theorem lt_of_getElem?_eq_some {α : Type} {l : List α} {n : Nat} {a : α}
    (h : l[n]? = some a) : n < l.length := by
  by_contra hc
  push_neg at hc
  rw [List.getElem?_eq_none hc] at h
  exact Option.noConfusion h

def carol : Player := { id := "carol", name := "Carol", percentage := 70, controlled := true }

def roundT : Round :=
  { id := "r1", name := "Round #1", order := ["alice", "carol"],
    attempts := [("alice", [some true]), ("carol", [none])],
    activePlayer := 1, winner := none }

def gameT : Game :=
  { id := "g", players := [alice, carol], rounds := [roundT],
    winner := none, bestOf := 3, attempts := 1, activeRound := 0 }

/-- Claim C2: when the `make`/`miss` that fills the active player's last
slot leaves two or more players sharing the maximum total, the reducer
appends one pending slot to every player's sequence of the round
(sudden-death overtime), leaves the round's `winner` and `activePlayer`
and the game's `activeRound` untouched.  The second conjunct spells out
that each player's sequence grows by exactly the appended slot. -/
theorem claim2_tie_triggers_overtime (draws : Nat → Nat) (newId : String) (g : Game)
    (b : Bool) {round : Round} {player : Player} {makes : List (Option Bool)} {j : Nat}
    {w1 w2 : String} {ws : List String}
    (hR : getActiveRound g = Except.ok round)
    (hP : getActivePlayer g = Except.ok player)
    (hC : player.controlled = true)
    (hM : lookupAtt round.attempts player.id = some makes)
    (hJ : makes.findIdx? (fun a => a.isNone) = some j)
    (hLast : j + 1 = makes.length)
    (hW : checkWinnersAux (setAtt round.attempts player.id (makes.set j (some b))) 0 []
      = w1 :: w2 :: ws) :
    gameReducer draws newId g (if b then Action.make else Action.miss) =
        Except.ok { g with
          rounds := g.rounds.set g.activeRound
            { round with
              attempts := (setAtt round.attempts player.id (makes.set j (some b))).map
                (fun e => (e.1, e.2 ++ [none])) } } ∧
      ∀ k l, lookupAtt (setAtt round.attempts player.id (makes.set j (some b))) k = some l →
        lookupAtt ((setAtt round.attempts player.id (makes.set j (some b))).map
          (fun e => (e.1, e.2 ++ [none]))) k = some (l ++ [none]) := by
  have hR0 := getActiveRound_eq_ok.mp hR
  have hlt := lt_of_getElem?_eq_some hR0
  constructor
  · have hred : gameReducer draws newId g (if b then Action.make else Action.miss) =
        markAction newId b g := by
      cases b <;> simp [gameReducer]
    have hmark : markAction newId b g = endRound newId { g with
        rounds := g.rounds.set g.activeRound
          { round with
            attempts := setAtt round.attempts player.id (makes.set j (some b)) } } := by
      simp [markAction, hR, hP, hC, hM, hJ, hLast]
    rw [hred, hmark]
    set g1 := { g with
      rounds := g.rounds.set g.activeRound
        { round with
          attempts := setAtt round.attempts player.id (makes.set j (some b)) } } with hg1
    have hR1 : getActiveRound g1 = Except.ok
        { round with attempts := setAtt round.attempts player.id (makes.set j (some b)) } := by
      rw [getActiveRound_eq_ok, hg1]
      exact List.getElem?_set_self hlt
    have hCW : checkWinners g1 = Except.ok (w1 :: w2 :: ws) := by
      simp [checkWinners, hR1, hW]
    have hlen : (w1 :: w2 :: ws).length > 1 := by simp
    simp only [endRound, hCW, hR1]
    rw [if_pos hlen]
    simp [overtime, hR1, hg1, List.set_set]
  · intro k l hkl
    rw [lookupAtt_mapAppend, hkl]
    rfl

theorem claim2_witness :
    gameReducer drawsZero "n" gameT (if true then Action.make else Action.miss) =
        Except.ok { gameT with
          rounds := gameT.rounds.set gameT.activeRound
            { roundT with
              attempts := (setAtt roundT.attempts carol.id ([none].set 0 (some true))).map
                (fun e => (e.1, e.2 ++ [none])) } } ∧
      ∀ k l, lookupAtt (setAtt roundT.attempts carol.id ([none].set 0 (some true))) k = some l →
        lookupAtt ((setAtt roundT.attempts carol.id ([none].set 0 (some true))).map
          (fun e => (e.1, e.2 ++ [none]))) k = some (l ++ [none]) :=
  claim2_tie_triggers_overtime drawsZero "n" gameT true rfl rfl rfl rfl rfl rfl rfl

/-- Claim C3: when the decided round brings its winner's tally of round
wins (counted over all concluded rounds in order) to
`winsToFinish = ceil(bestOf / 2)`, the reducer records the match winner
and creates no further round: the resulting state is exactly the input
state with the concluded round updated and `winner` set. -/
theorem claim3_match_completion (draws : Nat → Nat) (newId : String) (g : Game)
    (b : Bool) {round : Round} {player p : Player} {makes : List (Option Bool)} {j : Nat}
    {w : String}
    (hR : getActiveRound g = Except.ok round)
    (hP : getActivePlayer g = Except.ok player)
    (hC : player.controlled = true)
    (hM : lookupAtt round.attempts player.id = some makes)
    (hJ : makes.findIdx? (fun a => a.isNone) = some j)
    (hLast : j + 1 = makes.length)
    (hW : checkWinnersAux (setAtt round.attempts player.id (makes.set j (some b))) 0 []
      = [w])
    (hw0 : ¬(w = ""))
    (hf : g.players.find? (fun q => q.id = w) = some p)
    (hNeed : 1 ≤ winsToFinish g.bestOf)
    (hCount : countWins
      (g.rounds.set g.activeRound
        { round with
          attempts := setAtt round.attempts player.id (makes.set j (some b))
          winner := some w }) w = winsToFinish g.bestOf)
    (hOthers : othersBelow
      (g.rounds.set g.activeRound
        { round with
          attempts := setAtt round.attempts player.id (makes.set j (some b))
          winner := some w }) w (winsToFinish g.bestOf) = true) :
    gameReducer draws newId g (if b then Action.make else Action.miss) =
        Except.ok { g with
          rounds := g.rounds.set g.activeRound
            { round with
              attempts := setAtt round.attempts player.id (makes.set j (some b))
              winner := some w }
          winner := some p } ∧
      winsToFinish g.bestOf = (g.bestOf + 1) / 2 := by
  have hR0 := getActiveRound_eq_ok.mp hR
  have hlt := lt_of_getElem?_eq_some hR0
  refine ⟨?_, rfl⟩
  have hred : gameReducer draws newId g (if b then Action.make else Action.miss) =
      markAction newId b g := by
    cases b <;> simp [gameReducer]
  have hmark : markAction newId b g = endRound newId { g with
      rounds := g.rounds.set g.activeRound
        { round with
          attempts := setAtt round.attempts player.id (makes.set j (some b)) } } := by
    simp [markAction, hR, hP, hC, hM, hJ, hLast]
  rw [hred, hmark]
  set g1 := { g with
    rounds := g.rounds.set g.activeRound
      { round with
        attempts := setAtt round.attempts player.id (makes.set j (some b)) } } with hg1
  have hR1 : getActiveRound g1 = Except.ok
      { round with attempts := setAtt round.attempts player.id (makes.set j (some b)) } := by
    rw [getActiveRound_eq_ok, hg1]
    exact List.getElem?_set_self hlt
  have hCW : checkWinners g1 = Except.ok [w] := by
    simp [checkWinners, hR1, hW]
  have hAux : checkGameOverAux g.players (winsToFinish g.bestOf)
      (g.rounds.set g.activeRound
        { round with
          attempts := setAtt round.attempts player.id (makes.set j (some b))
          winner := some w }) [] = Except.ok (some p) := by
    apply checkGameOverAux_some hw0 hf
    · simpa [countTally] using hCount
    · rw [hCount]; exact hNeed
    · intro k hk hkw
      simpa [countTally] using othersBelow_spec hOthers hNeed k hk hkw
  simp only [endRound, hCW, hR1]
  rw [if_neg (by simp : ¬([w].length > 1))]
  rw [if_pos (by simp : [w].length = 1)]
  simp only [List.getElem?_cons_zero, hg1, List.set_set, checkGameOver]
  rw [hAux]

def roundM1 : Round :=
  { id := "r1", name := "Round #1", order := ["alice", "carol"],
    attempts := [("alice", [some true]), ("carol", [some false])],
    activePlayer := 0, winner := some "alice" }

def roundM2 : Round :=
  { id := "r2", name := "Round #2", order := ["carol", "alice"],
    attempts := [("alice", [none]), ("carol", [some false])],
    activePlayer := 1, winner := none }

def gameM : Game :=
  { id := "g", players := [alice, carol], rounds := [roundM1, roundM2],
    winner := none, bestOf := 3, attempts := 1, activeRound := 1 }

theorem claim3_witness :
    gameReducer drawsZero "r3" gameM (if true then Action.make else Action.miss) =
        Except.ok { gameM with
          rounds := gameM.rounds.set gameM.activeRound
            { roundM2 with
              attempts := setAtt roundM2.attempts alice.id ([none].set 0 (some true))
              winner := some "alice" }
          winner := some alice } ∧
      winsToFinish gameM.bestOf = (gameM.bestOf + 1) / 2 :=
  claim3_match_completion drawsZero "r3" gameM true rfl rfl rfl rfl rfl rfl rfl
    (by decide) rfl (by decide) (by decide) (by decide)

/-- The `make`/`miss` dispatch of the reducer, for a boolean-indexed
action. -/
theorem reducer_make_miss {draws : Nat → Nat} {newId : String} {g : Game} {b : Bool} :
    gameReducer draws newId g (if b then Action.make else Action.miss) =
      markAction newId b g := by
  cases b <;> simp [gameReducer]

/-- A `make`/`miss` that fills the active player's last pending slot hands
the updated state to `endRound`. -/
theorem markAction_fills_last {newId : String} {b : Bool} {g : Game}
    {round : Round} {player : Player} {makes : List (Option Bool)} {j : Nat}
    (hR : getActiveRound g = Except.ok round)
    (hP : getActivePlayer g = Except.ok player)
    (hC : player.controlled = true)
    (hM : lookupAtt round.attempts player.id = some makes)
    (hJ : makes.findIdx? (fun a => a.isNone) = some j)
    (hLast : j + 1 = makes.length) :
    markAction newId b g = endRound newId { g with
      rounds := g.rounds.set g.activeRound
        { round with
          attempts := setAtt round.attempts player.id (makes.set j (some b)) } } := by
  simp [markAction, hR, hP, hC, hM, hJ, hLast]

/-- Claim C1: a `make`/`miss` that completes the round with a unique
leader `w` (and does not yet win the match) records `w` as the round's
winner and appends a fresh round: reversed order, all-pending attempts of
the configured length for every roster player, `activePlayer` 0, and the
new round becomes the active round. -/
theorem claim1_winner_creates_next_round (draws : Nat → Nat) (newId : String) (g : Game)
    (b : Bool) {round : Round} {player : Player} {makes : List (Option Bool)} {j : Nat}
    {w : String}
    (hR : getActiveRound g = Except.ok round)
    (hP : getActivePlayer g = Except.ok player)
    (hC : player.controlled = true)
    (hM : lookupAtt round.attempts player.id = some makes)
    (hJ : makes.findIdx? (fun a => a.isNone) = some j)
    (hLast : j + 1 = makes.length)
    (hW : checkWinnersAux (setAtt round.attempts player.id (makes.set j (some b))) 0 []
      = [w])
    (hNeed : 1 ≤ winsToFinish g.bestOf)
    (hBelow : belowNeed
      (g.rounds.set g.activeRound
        { round with
          attempts := setAtt round.attempts player.id (makes.set j (some b))
          winner := some w }) (winsToFinish g.bestOf) = true)
    (hLastR : g.activeRound + 1 = g.rounds.length) :
    ∃ g', gameReducer draws newId g (if b then Action.make else Action.miss) =
        Except.ok g' ∧
      g'.rounds.length = g.rounds.length + 1 ∧
      g'.activeRound = g.rounds.length ∧
      (g'.rounds[g.activeRound]?).map Round.winner = some (some w) ∧
      (g'.rounds[g'.activeRound]?).map Round.order = some round.order.reverse ∧
      (g'.rounds[g'.activeRound]?).map Round.attempts =
        some (g.players.map (fun p2 => (p2.id, List.replicate g.attempts none))) ∧
      (g'.rounds[g'.activeRound]?).map Round.activePlayer = some 0 ∧
      (g'.rounds[g'.activeRound]?).map Round.winner = some none := by
  have hR0 := getActiveRound_eq_ok.mp hR
  have hlt := lt_of_getElem?_eq_some hR0
  rw [reducer_make_miss, markAction_fills_last hR hP hC hM hJ hLast]
  set g1 := { g with
    rounds := g.rounds.set g.activeRound
      { round with
        attempts := setAtt round.attempts player.id (makes.set j (some b)) } } with hg1
  have hR1 : getActiveRound g1 = Except.ok
      { round with attempts := setAtt round.attempts player.id (makes.set j (some b)) } := by
    rw [getActiveRound_eq_ok, hg1]
    exact List.getElem?_set_self hlt
  have hCW : checkWinners g1 = Except.ok [w] := by
    simp [checkWinners, hR1, hW]
  have hnone : checkGameOverAux g.players (winsToFinish g.bestOf)
      (g.rounds.set g.activeRound
        { round with
          attempts := setAtt round.attempts player.id (makes.set j (some b))
          winner := some w }) [] = Except.ok none := by
    apply checkGameOverAux_none
    intro k hk
    simpa [countTally] using belowNeed_spec hBelow hNeed k hk
  have hNoAtt : hasAttemptsLeft
      { round with
        attempts := setAtt round.attempts player.id (makes.set j (some b))
        winner := some w } = false :=
    hasAttemptsLeft_eq_false (checkWinnersAux_no_pending hW (by simp))
  have hGL : (g.rounds.set g.activeRound
      { round with
        attempts := setAtt round.attempts player.id (makes.set j (some b))
        winner := some w }).getLast? = some
      { round with
        attempts := setAtt round.attempts player.id (makes.set j (some b))
        winner := some w } := by
    rw [List.getLast?_eq_getElem?, List.length_set]
    have hidx : g.rounds.length - 1 = g.activeRound := by omega
    rw [hidx]
    exact List.getElem?_set_self hlt
  simp only [endRound, hCW, hR1]
  rw [if_neg (by simp : ¬([w].length > 1))]
  rw [if_pos (by simp : [w].length = 1)]
  simp only [List.getElem?_cons_zero, hg1, List.set_set, checkGameOver, hnone]
  simp only [createNextRound, hGL, hNoAtt, Bool.false_eq_true, if_false,
    List.length_append, List.length_set, List.length_cons, List.length_nil]
  by_cases hIsLast : (round.activePlayer : Int) = (round.order.length : Int) - 1
  · rw [if_pos ⟨hIsLast, by omega⟩]
    refine ⟨_, rfl, ?_, ?_, ?_, ?_, ?_, ?_, ?_⟩
    · simp [List.length_set, List.length_append]
    · dsimp only []
      omega
    · dsimp only []
      rw [List.getElem?_set_self (by simp [List.length_set]; omega)]
      rfl
    · dsimp only []
      rw [List.getElem?_set_ne (by omega),
        List.getElem?_append_right (by simp [List.length_set]; omega)]
      simp [List.length_set, hLastR]
    · dsimp only []
      rw [List.getElem?_set_ne (by omega),
        List.getElem?_append_right (by simp [List.length_set]; omega)]
      simp [List.length_set, hLastR]
    · dsimp only []
      rw [List.getElem?_set_ne (by omega),
        List.getElem?_append_right (by simp [List.length_set]; omega)]
      simp [List.length_set, hLastR]
    · dsimp only []
      rw [List.getElem?_set_ne (by omega),
        List.getElem?_append_right (by simp [List.length_set]; omega)]
      simp [List.length_set, hLastR]
  · rw [if_neg (by intro hc; exact hIsLast hc.1)]
    refine ⟨_, rfl, ?_, ?_, ?_, ?_, ?_, ?_, ?_⟩
    · simp [List.length_set, List.length_append]
    · dsimp only []
    · dsimp only []
      rw [List.getElem?_append, if_pos (by rw [List.length_set]; omega),
        List.getElem?_set_self hlt]
      rfl
    · dsimp only []
      rw [List.getElem?_append_right (by rw [List.length_set])]
      simp [List.length_set]
    · dsimp only []
      rw [List.getElem?_append_right (by rw [List.length_set])]
      simp [List.length_set]
    · dsimp only []
      rw [List.getElem?_append_right (by rw [List.length_set])]
      simp [List.length_set]
    · dsimp only []
      rw [List.getElem?_append_right (by rw [List.length_set])]
      simp [List.length_set]

theorem claim1_witness :
    ∃ g', gameReducer drawsZero "r2" gameT (if false then Action.make else Action.miss) =
        Except.ok g' ∧
      g'.rounds.length = gameT.rounds.length + 1 ∧
      g'.activeRound = gameT.rounds.length ∧
      (g'.rounds[gameT.activeRound]?).map Round.winner = some (some "alice") ∧
      (g'.rounds[g'.activeRound]?).map Round.order = some roundT.order.reverse ∧
      (g'.rounds[g'.activeRound]?).map Round.attempts =
        some (gameT.players.map (fun p2 => (p2.id, List.replicate gameT.attempts none))) ∧
      (g'.rounds[g'.activeRound]?).map Round.activePlayer = some 0 ∧
      (g'.rounds[g'.activeRound]?).map Round.winner = some none :=
  claim1_winner_creates_next_round drawsZero "r2" gameT false rfl rfl rfl rfl rfl rfl rfl
    (by decide) (by decide) rfl

theorem mem_setAtt_of_ne {m : List (String × List (Option Bool))} {k : String}
    {v : List (Option Bool)} {e : String × List (Option Bool)}
    (he : e ∈ m) (hne : ¬(e.1 = k)) : e ∈ setAtt m k v := by
  apply List.mem_map.mpr
  exact ⟨e, he, by simp [hne]⟩

def roundF : Round :=
  { id := "r1", name := "Round #1", order := ["alice", "bob"],
    attempts := [("alice", [none, none]), ("bob", [none, none])],
    activePlayer := 0, winner := none }

def gameF : Game :=
  { id := "g", players := [alice, bob], rounds := [roundF],
    winner := none, bestOf := 3, attempts := 2, activeRound := 0 }

/-- Claim C4, counterexample: with two attempts per round, a `make` by the
controlled active player that is not the player's last slot leaves
`activePlayer` unchanged (0), while the claim demands an advance to
`(0 + 1) % 2 = 1`. -/
theorem claim4_counterexample :
    (gameReducer drawsZero "n" gameF Action.make).map
        (fun g2 => g2.rounds.map Round.activePlayer) = Except.ok [0] ∧
      ¬((0 : Nat) = (roundF.activePlayer + 1) % roundF.order.length) := by
  decide

/-- Claim C4 as amended: for an undecided round with a controlled active
player, a `make`/`miss` advances `activePlayer` by exactly one position
modulo the number of players in `order` when it fills the player's last
slot, and leaves `activePlayer` unchanged otherwise. -/
theorem claim4_turn_rotation_amended (draws : Nat → Nat) (newId : String) (g : Game)
    (b : Bool) {round : Round} {player : Player} {makes : List (Option Bool)} {j : Nat}
    (hR : getActiveRound g = Except.ok round)
    (hP : getActivePlayer g = Except.ok player)
    (hC : player.controlled = true)
    (hM : lookupAtt round.attempts player.id = some makes)
    (hJ : makes.findIdx? (fun a => a.isNone) = some j)
    (hPend : ∃ e ∈ round.attempts, ¬(e.1 = player.id) ∧ none ∈ e.2) :
    ∃ g', gameReducer draws newId g (if b then Action.make else Action.miss) =
        Except.ok g' ∧
      g'.activeRound = g.activeRound ∧
      (g'.rounds[g.activeRound]?).map Round.activePlayer =
        some (if j + 1 = makes.length
          then (round.activePlayer + 1) % round.order.length
          else round.activePlayer) := by
  have hR0 := getActiveRound_eq_ok.mp hR
  have hlt := lt_of_getElem?_eq_some hR0
  rcases hPend with ⟨e, he, hne, hp⟩
  have he1 : e ∈ setAtt round.attempts player.id (makes.set j (some b)) :=
    mem_setAtt_of_ne he hne
  rw [reducer_make_miss]
  by_cases hLast : j + 1 = makes.length
  · rw [markAction_fills_last hR hP hC hM hJ hLast]
    set g1 := { g with
      rounds := g.rounds.set g.activeRound
        { round with
          attempts := setAtt round.attempts player.id (makes.set j (some b)) } } with hg1
    have hR1 : getActiveRound g1 = Except.ok
        { round with attempts := setAtt round.attempts player.id (makes.set j (some b)) } := by
      rw [getActiveRound_eq_ok, hg1]
      exact List.getElem?_set_self hlt
    have hEmptyW := checkWinnersAux_pending
      ⟨e, he1, countMakes_eq_none.mpr hp⟩ 0 []
    have hCW : checkWinners g1 = Except.ok [] := by
      simp [checkWinners, hR1, hEmptyW]
    have hHA : hasAttemptsLeft
        { round with attempts := setAtt round.attempts player.id (makes.set j (some b)) }
        = true :=
      hasAttemptsLeft_eq_true he1 hp
    simp only [endRound, hCW, hR1]
    rw [if_neg (by simp : ¬(([] : List String).length > 1))]
    rw [if_neg (by simp : ¬(([] : List String).length = 1))]
    simp only [hg1, List.set_set, hHA, eq_self_iff_true, if_true]
    refine ⟨_, rfl, rfl, ?_⟩
    rw [if_pos hLast]
    dsimp only []
    rw [List.getElem?_set_self hlt]
    rfl
  · have hmark : markAction newId b g = Except.ok { g with
        rounds := g.rounds.set g.activeRound
          { round with
            attempts := setAtt round.attempts player.id (makes.set j (some b)) } } := by
      simp [markAction, hR, hP, hC, hM, hJ, hLast]
    rw [hmark]
    refine ⟨_, rfl, rfl, ?_⟩
    rw [if_neg hLast]
    dsimp only []
    rw [List.getElem?_set_self hlt]
    rfl

theorem claim4_witness :
    ∃ g', gameReducer drawsZero "n" gameF (if true then Action.make else Action.miss) =
        Except.ok g' ∧
      g'.activeRound = gameF.activeRound ∧
      (g'.rounds[gameF.activeRound]?).map Round.activePlayer =
        some (if 0 + 1 = [(none : Option Bool), none].length
          then (roundF.activePlayer + 1) % roundF.order.length
          else roundF.activePlayer) :=
  claim4_turn_rotation_amended drawsZero "n" gameF true rfl rfl rfl rfl rfl
    ⟨("bob", [none, none]), by decide, by decide, by decide⟩


theorem getLast?_of_pos {l : List Round} (h : 0 < l.length) :
    ∃ a, l.getLast? = some a := by
  rw [List.getLast?_eq_getElem?]
  have h2 : l.length - 1 < l.length := by omega
  exact ⟨l[l.length - 1], List.getElem?_eq_getElem h2⟩

theorem endRound_spec {newId : String} {g : Game} {r : Round}
    (hR : g.rounds[g.activeRound]? = some r)
    (hKeys : ∀ k ∈ keysOf r.attempts, k = "" ∨
      (g.players.find? (fun p2 => p2.id = k)).isSome = true)
    (hWinners : ∀ r2 ∈ g.rounds, ∀ w2, r2.winner = some w2 → w2 = "" ∨
      (g.players.find? (fun p2 => p2.id = w2)).isSome = true) :
    ∃ g' r', endRound newId g = Except.ok g' ∧
      g'.players = g.players ∧
      g'.rounds[g.activeRound]? = some r' ∧
      (r'.attempts = r.attempts ∨
        r'.attempts = r.attempts.map (fun e => (e.1, e.2 ++ [none]))) ∧
      (r'.winner = r.winner ∨
        ∃ w, checkWinnersAux r.attempts 0 [] = [w] ∧ r'.winner = some w) ∧
      (∀ n, ¬(n = g.activeRound) → n < g.rounds.length → g'.rounds[n]? = g.rounds[n]?) ∧
      (g'.rounds.length = g.rounds.length ∨
        (g'.rounds.length = g.rounds.length + 1 ∧
          ∃ rn, g'.rounds[g.rounds.length]? = some rn ∧
            rn.attempts = g.players.map (fun p2 => (p2.id, List.replicate g.attempts none)) ∧
            rn.winner = none)) := by
  have hRok : getActiveRound g = Except.ok r := getActiveRound_eq_ok.mpr hR
  have hlt := lt_of_getElem?_eq_some hR
  cases hww : checkWinnersAux r.attempts 0 [] with
  | nil =>
    have hCW : checkWinners g = Except.ok [] := by simp [checkWinners, hRok, hww]
    simp only [endRound, hCW, hRok]
    rw [if_neg (by simp), if_neg (by simp)]
    simp only []
    by_cases hHA : hasAttemptsLeft r = true
    · rw [hHA, if_pos rfl]
      refine ⟨_, _, rfl, rfl, List.getElem?_set_self hlt, Or.inl rfl, Or.inl rfl,
        ?_, Or.inl (List.length_set g.rounds g.activeRound _)⟩
      intro n hn _
      exact List.getElem?_set_ne (fun hc => hn hc.symm)
    · rw [Bool.not_eq_true] at hHA
      rw [hHA, if_neg (by simp)]
      by_cases hC2 : (r.activePlayer : Int) = (r.order.length : Int) - 1 ∧
          g.activeRound + 1 < g.rounds.length
      · rw [if_pos hC2]
        refine ⟨_, _, rfl, rfl, List.getElem?_set_self hlt, Or.inl rfl, Or.inl rfl,
          ?_, Or.inl (List.length_set g.rounds g.activeRound _)⟩
        intro n hn _
        exact List.getElem?_set_ne (fun hc => hn hc.symm)
      · rw [if_neg hC2]
        exact ⟨g, r, rfl, rfl, hR, Or.inl rfl, Or.inl rfl, fun n _ _ => rfl, Or.inl rfl⟩
  | cons w rest =>
    have hnp := checkWinnersAux_no_pending hww (by simp)
    have hNoAtt : hasAttemptsLeft r = false := hasAttemptsLeft_eq_false hnp
    cases rest with
    | cons w2 ws =>
      have hCW : checkWinners g = Except.ok (w :: w2 :: ws) := by
        simp [checkWinners, hRok, hww]
      have hend : endRound newId g = Except.ok { g with
          rounds := g.rounds.set g.activeRound
            { r with attempts := r.attempts.map (fun e => (e.1, e.2 ++ [none])) } } := by
        simp only [endRound, hCW, hRok]
        rw [if_pos (by simp)]
        simp [overtime, hRok]
      refine ⟨_, _, hend, rfl, List.getElem?_set_self hlt, Or.inr rfl, Or.inl rfl,
        ?_, Or.inl (List.length_set g.rounds g.activeRound _)⟩
      intro n hn _
      exact List.getElem?_set_ne (fun hc => hn hc.symm)
    | nil =>
      have hCW : checkWinners g = Except.ok [w] := by simp [checkWinners, hRok, hww]
      have hwkeys : w = "" ∨ (g.players.find? (fun p2 => p2.id = w)).isSome = true := by
        rcases checkWinnersAux_mem hww w (by simp) with h1 | h1
        · simp at h1
        · exact hKeys w h1
      have hWF2 : ∀ r2 ∈ g.rounds.set g.activeRound { r with winner := some w },
          ∀ w2, r2.winner = some w2 → w2 = "" ∨
            (g.players.find? (fun p2 => p2.id = w2)).isSome = true := by
        intro r2 hr2 w2 hw2
        rcases List.mem_or_eq_of_mem_set hr2 with h2 | h2
        · exact hWinners r2 h2 w2 hw2
        · rw [h2] at hw2
          have : w = w2 := Option.some.inj hw2
          exact this ▸ hwkeys
      rcases checkGameOverAux_isOk (g.rounds.set g.activeRound { r with winner := some w })
        [] hWF2 with ⟨o, hAux⟩
      cases o with
      | some p =>
        have hend : endRound newId g = Except.ok { g with
            rounds := g.rounds.set g.activeRound { r with winner := some w }
            winner := some p } := by
          simp only [endRound, hCW, hRok]
          rw [if_neg (by simp : ¬([w].length > 1))]
          rw [if_pos (by simp : [w].length = 1)]
          simp only [List.getElem?_cons_zero, checkGameOver]
          rw [hAux]
        refine ⟨_, _, hend, rfl, List.getElem?_set_self hlt, Or.inl rfl,
          Or.inr ⟨w, rfl, rfl⟩, ?_, Or.inl (List.length_set g.rounds g.activeRound _)⟩
        intro n hn _
        exact List.getElem?_set_ne (fun hc => hn hc.symm)
      | none =>
        have hpos : 0 < (g.rounds.set g.activeRound { r with winner := some w }).length := by
          rw [List.length_set]; omega
        rcases getLast?_of_pos hpos with ⟨last, hGL⟩
        have hNoAtt1 : hasAttemptsLeft { r with winner := some w } = false := hNoAtt
        by_cases hC2 : (r.activePlayer : Int) = (r.order.length : Int) - 1 ∧
            g.activeRound + 1 <
              ((g.rounds.set g.activeRound { r with winner := some w }).length + 1)
        · have hend : endRound newId g = Except.ok { g with
              rounds := ((g.rounds.set g.activeRound { r with winner := some w }) ++
                [({ id := newId
                    winner := none
                    name := "Round #" ++
                      toString ((g.rounds.set g.activeRound
                        { r with winner := some w }).length + 1)
                    order := last.order.reverse
                    activePlayer := 0
                    attempts := g.players.map
                      (fun p2 => (p2.id, List.replicate g.attempts none)) } : Round)]).set
                g.activeRound { r with winner := some w, activePlayer := 0 }
              activeRound := g.activeRound + 1 } := by
            simp only [endRound, hCW, hRok]
            rw [if_neg (by simp : ¬([w].length > 1))]
            rw [if_pos (by simp : [w].length = 1)]
            simp only [List.getElem?_cons_zero, checkGameOver]
            rw [hAux]
            simp only [createNextRound, hGL, hNoAtt1, Bool.false_eq_true, if_false,
              List.length_append, List.length_cons, List.length_nil]
            rw [if_pos hC2]
          refine ⟨_, { r with winner := some w, activePlayer := 0 }, hend, rfl, ?_,
            Or.inl rfl, Or.inr ⟨w, rfl, rfl⟩, ?_, Or.inr ⟨?_, ?_⟩⟩
          · dsimp only []
            rw [List.getElem?_set_self (by simp [List.length_set]; omega)]
          · intro n hn hnlt
            dsimp only []
            rw [List.getElem?_set_ne (fun hc => hn hc.symm)]
            rw [List.getElem?_append]
            rw [if_pos (by rw [List.length_set]; omega)]
            exact List.getElem?_set_ne (fun hc => hn hc.symm)
          · simp [List.length_set]
          · have hrn : (((g.rounds.set g.activeRound { r with winner := some w }) ++
                [({ id := newId
                    winner := none
                    name := "Round #" ++
                      toString ((g.rounds.set g.activeRound
                        { r with winner := some w }).length + 1)
                    order := last.order.reverse
                    activePlayer := 0
                    attempts := g.players.map
                      (fun p2 => (p2.id, List.replicate g.attempts none)) } : Round)]).set
                g.activeRound
                { r with winner := some w, activePlayer := 0 })[g.rounds.length]? =
                some ({ id := newId,
                        winner := none,
                        name := "Round #" ++
                          toString ((g.rounds.set g.activeRound
                            { r with winner := some w }).length + 1),
                        order := last.order.reverse,
                        activePlayer := 0,
                        attempts := g.players.map
                          (fun p2 => (p2.id, List.replicate g.attempts none)) } : Round) := by
              rw [List.getElem?_set_ne (by omega)]
              rw [List.getElem?_append_right (by rw [List.length_set])]
              simp [List.length_set]
            exact ⟨_, hrn, rfl, rfl⟩
        · have hend : endRound newId g = Except.ok { g with
              rounds := (g.rounds.set g.activeRound { r with winner := some w }) ++
                [({ id := newId
                    winner := none
                    name := "Round #" ++
                      toString ((g.rounds.set g.activeRound
                        { r with winner := some w }).length + 1)
                    order := last.order.reverse
                    activePlayer := 0
                    attempts := g.players.map
                      (fun p2 => (p2.id, List.replicate g.attempts none)) } : Round)]
              activeRound := (g.rounds.set g.activeRound
                { r with winner := some w }).length } := by
            simp only [endRound, hCW, hRok]
            rw [if_neg (by simp : ¬([w].length > 1))]
            rw [if_pos (by simp : [w].length = 1)]
            simp only [List.getElem?_cons_zero, checkGameOver]
            rw [hAux]
            simp only [createNextRound, hGL, hNoAtt1, Bool.false_eq_true, if_false,
              List.length_append, List.length_cons, List.length_nil]
            rw [if_neg hC2]
          refine ⟨_, { r with winner := some w }, hend, rfl, ?_,
            Or.inl rfl, Or.inr ⟨w, rfl, rfl⟩, ?_, Or.inr ⟨?_, ?_⟩⟩
          · dsimp only []
            rw [List.getElem?_append]
            rw [if_pos (by rw [List.length_set]; omega)]
            exact List.getElem?_set_self hlt
          · intro n hn hnlt
            dsimp only []
            rw [List.getElem?_append]
            rw [if_pos (by rw [List.length_set]; omega)]
            exact List.getElem?_set_ne (fun hc => hn hc.symm)
          · simp [List.length_set]
          · have hrn : ((g.rounds.set g.activeRound { r with winner := some w }) ++
                [({ id := newId
                    winner := none
                    name := "Round #" ++
                      toString ((g.rounds.set g.activeRound
                        { r with winner := some w }).length + 1)
                    order := last.order.reverse
                    activePlayer := 0
                    attempts := g.players.map
                      (fun p2 => (p2.id, List.replicate g.attempts none)) } : Round)])[
                g.rounds.length]? =
                some ({ id := newId,
                        winner := none,
                        name := "Round #" ++
                          toString ((g.rounds.set g.activeRound
                            { r with winner := some w }).length + 1),
                        order := last.order.reverse,
                        activePlayer := 0,
                        attempts := g.players.map
                          (fun p2 => (p2.id, List.replicate g.attempts none)) } : Round) := by
              rw [List.getElem?_append_right (by rw [List.length_set])]
              simp [List.length_set]
            exact ⟨_, hrn, rfl, rfl⟩

theorem findIdx?_lt_length {p : Option Bool → Bool} :
    ∀ (l : List (Option Bool)) (i j : Nat), List.findIdx? p l i = some j →
      j < i + l.length := by
  intro l
  induction l with
  | nil => intro i j h; simp [List.findIdx?_nil] at h
  | cons a rest ih =>
    intro i j h
    rw [List.findIdx?_cons] at h
    by_cases hp : p a = true
    · rw [if_pos hp] at h
      have h2 : i = j := Option.some.inj h
      simp only [List.length_cons]
      omega
    · rw [if_neg hp] at h
      have h2 := ih (i + 1) j h
      simp only [List.length_cons]
      omega

/-- Claim C5: for a controlled active player, `make`/`miss` raises
exactly when the player has no pending slot; otherwise it sets the
player's first pending slot of the active round to the dispatched
outcome. -/
theorem claim5_sets_first_pending_or_raises (draws : Nat → Nat) (newId : String)
    (g : Game) (b : Bool) {round : Round} {player : Player} {makes : List (Option Bool)}
    (hR : getActiveRound g = Except.ok round)
    (hP : getActivePlayer g = Except.ok player)
    (hC : player.controlled = true)
    (hM : lookupAtt round.attempts player.id = some makes)
    (hKeys : ∀ k ∈ keysOf round.attempts, k = "" ∨
      (g.players.find? (fun p2 => p2.id = k)).isSome = true)
    (hWinners : ∀ r2 ∈ g.rounds, ∀ w2, r2.winner = some w2 → w2 = "" ∨
      (g.players.find? (fun p2 => p2.id = w2)).isSome = true) :
    (makes.findIdx? (fun a => a.isNone) = none →
      gameReducer draws newId g (if b then Action.make else Action.miss) =
        Except.error "Invalid action, no more makes left") ∧
    (∀ j, makes.findIdx? (fun a => a.isNone) = some j →
      ∃ g' r' l, gameReducer draws newId g (if b then Action.make else Action.miss) =
          Except.ok g' ∧
        g'.rounds[g.activeRound]? = some r' ∧
        lookupAtt r'.attempts player.id = some l ∧
        l[j]? = some (some b)) := by
  have hR0 := getActiveRound_eq_ok.mp hR
  have hlt := lt_of_getElem?_eq_some hR0
  constructor
  · intro hNone
    rw [reducer_make_miss]
    simp [markAction, hR, hP, hC, hM, hNone]
  · intro j hJ
    have hjlt : j < makes.length := by
      have := findIdx?_lt_length makes 0 j hJ
      omega
    have hjlt2 : j < (makes.set j (some b)).length := by
      rw [List.length_set]; exact hjlt
    rw [reducer_make_miss]
    by_cases hLast : j + 1 = makes.length
    · rw [markAction_fills_last hR hP hC hM hJ hLast]
      have hR1 : ({ g with
          rounds := g.rounds.set g.activeRound
            { round with
              attempts := setAtt round.attempts player.id (makes.set j (some b)) } }
          : Game).rounds[({ g with
          rounds := g.rounds.set g.activeRound
            { round with
              attempts := setAtt round.attempts player.id (makes.set j (some b)) } }
          : Game).activeRound]? = some
          { round with attempts := setAtt round.attempts player.id (makes.set j (some b)) } :=
        List.getElem?_set_self hlt
      have hKeys1 : ∀ k ∈ keysOf (setAtt round.attempts player.id (makes.set j (some b))),
          k = "" ∨ (g.players.find? (fun p2 => p2.id = k)).isSome = true := by
        rw [keysOf_setAtt]
        exact hKeys
      have hWinners1 : ∀ r2 ∈ g.rounds.set g.activeRound
          { round with attempts := setAtt round.attempts player.id (makes.set j (some b)) },
          ∀ w2, r2.winner = some w2 → w2 = "" ∨
            (g.players.find? (fun p2 => p2.id = w2)).isSome = true := by
        intro r2 hr2 w2 hw2
        rcases List.mem_or_eq_of_mem_set hr2 with h2 | h2
        · exact hWinners r2 h2 w2 hw2
        · rw [h2] at hw2
          exact hWinners round (List.getElem?_mem hR0) w2 hw2
      rcases endRound_spec hR1 hKeys1 hWinners1 with
        ⟨g', r', hend, _, hget, hatt, _, _, _⟩
      rcases hatt with h4 | h4
      · refine ⟨g', r', makes.set j (some b), hend, hget, ?_, ?_⟩
        · rw [h4]
          exact lookupAtt_setAtt_self hM
        · exact List.getElem?_set_self hjlt
      · refine ⟨g', r', makes.set j (some b) ++ [none], hend, hget, ?_, ?_⟩
        · rw [h4, lookupAtt_mapAppend, lookupAtt_setAtt_self hM]
          rfl
        · rw [List.getElem?_append]
          rw [if_pos hjlt2]
          exact List.getElem?_set_self hjlt
    · have hmark : markAction newId b g = Except.ok { g with
          rounds := g.rounds.set g.activeRound
            { round with
              attempts := setAtt round.attempts player.id (makes.set j (some b)) } } := by
        simp [markAction, hR, hP, hC, hM, hJ, hLast]
      rw [hmark]
      refine ⟨_, { round with
          attempts := setAtt round.attempts player.id (makes.set j (some b)) },
        makes.set j (some b), rfl, List.getElem?_set_self hlt, ?_, ?_⟩
      · exact lookupAtt_setAtt_self hM
      · exact List.getElem?_set_self hjlt

theorem claim5_witness :
    (([none, none] : List (Option Bool)).findIdx? (fun a => a.isNone) = none →
      gameReducer drawsZero "n" gameF (if true then Action.make else Action.miss) =
        Except.error "Invalid action, no more makes left") ∧
    (∀ j, ([none, none] : List (Option Bool)).findIdx? (fun a => a.isNone) = some j →
      ∃ g' r' l, gameReducer drawsZero "n" gameF (if true then Action.make else Action.miss) =
          Except.ok g' ∧
        g'.rounds[gameF.activeRound]? = some r' ∧
        lookupAtt r'.attempts alice.id = some l ∧
        l[j]? = some (some true)) :=
  claim5_sets_first_pending_or_raises drawsZero "n" gameF true rfl rfl rfl rfl
    (by decide) (by decide)

theorem set_eq_self_of_getElem? {α : Type} : ∀ (l : List α) (n : Nat) (a : α),
    l[n]? = some a → l.set n a = l := by
  intro l
  induction l with
  | nil => intro n a h; simp at h
  | cons x rest ih =>
    intro n a h
    cases n with
    | zero =>
      simp only [List.getElem?_cons_zero, Option.some.injEq] at h
      simp [List.set, h]
    | succ m =>
      simp only [List.getElem?_cons_succ] at h
      simp [List.set, ih m a h]

theorem findIdx?_isNone_eq_none {l : List (Option Bool)} (h : none ∉ l) :
    ∀ i, List.findIdx? (fun a => a.isNone) l i = none := by
  induction l with
  | nil => intro i; simp [List.findIdx?_nil]
  | cons a rest ih =>
    intro i
    rw [List.findIdx?_cons]
    cases a with
    | none => simp at h
    | some b2 =>
      rw [if_neg (by simp)]
      exact ih (fun hc => h (List.mem_cons.mpr (Or.inr hc))) (i + 1)

def roundD1 : Round :=
  { id := "r1", name := "Round #1", order := ["alice", "carol"],
    attempts := [("alice", [some false]), ("carol", [some true])],
    activePlayer := 0, winner := some "carol" }

def roundD2 : Round :=
  { id := "r2", name := "Round #2", order := ["carol", "alice"],
    attempts := [("alice", [some false]), ("carol", [some true])],
    activePlayer := 1, winner := some "carol" }

def gameD : Game :=
  { id := "g", players := [alice, carol], rounds := [roundD1, roundD2],
    winner := some carol, bestOf := 3, attempts := 1, activeRound := 1 }

/-- Claim C8, counterexample: after the match has ended (`gameD.winner`
is set) and the active player of the final round is controlled, `make`
raises instead of being a no-op. -/
theorem claim8_counterexample :
    gameD.winner.isSome = true ∧
      gameReducer drawsZero "n" gameD Action.make =
        Except.error "Invalid action, no more makes left" := by
  decide

/-- Claim C8 as amended: once `game.winner` is set, `make`/`miss` while
the active player is uncontrolled and `simulate` while the active player
is controlled are silent no-ops; `simulate` on an uncontrolled active
player returns a state equal by value to the input (it re-derives the
same round and match winners); but `make`/`miss` on a controlled active
player raise the no-pending-slot error. -/
theorem claim8_after_match_end (draws : Nat → Nat) (newId : String) (g : Game)
    {round : Round} {player p : Player} {makes : List (Option Bool)} {w : String}
    (hR : getActiveRound g = Except.ok round)
    (hP : getActivePlayer g = Except.ok player)
    (hM : lookupAtt round.attempts player.id = some makes)
    (hNodup : nodupIds (keysOf round.attempts) = true)
    (hW : checkWinnersAux round.attempts 0 [] = [w])
    (hRW : round.winner = some w)
    (hGO : checkGameOverAux g.players (winsToFinish g.bestOf) g.rounds [] =
      Except.ok (some p))
    (hg : g.winner = some p) :
    (player.controlled = false →
      gameReducer draws newId g Action.make = Except.ok g ∧
      gameReducer draws newId g Action.miss = Except.ok g ∧
      gameReducer draws newId g Action.simulate = Except.ok g) ∧
    (player.controlled = true →
      gameReducer draws newId g Action.simulate = Except.ok g ∧
      gameReducer draws newId g Action.make =
        Except.error "Invalid action, no more makes left" ∧
      gameReducer draws newId g Action.miss =
        Except.error "Invalid action, no more makes left") := by
  have hR0 := getActiveRound_eq_ok.mp hR
  have hnp := checkWinnersAux_no_pending hW (by simp)
  obtain ⟨e, hfind, he1, he2⟩ :
      ∃ e, round.attempts.find? (fun e2 => e2.1 = player.id) = some e ∧
        e.1 = player.id ∧ e.2 = makes := by
    rw [lookupAtt] at hM
    cases hfind : round.attempts.find? (fun e2 => e2.1 = player.id) with
    | none => rw [hfind] at hM; exact Option.noConfusion hM
    | some e =>
      rw [hfind] at hM
      exact ⟨e, rfl, by simpa using List.find?_some hfind, Option.some.inj hM⟩
  have hnomem : none ∉ makes := by
    intro hc
    exact hnp e (List.mem_of_find?_eq_some hfind)
      (countMakes_eq_none.mpr (he2 ▸ hc))
  constructor
  · intro hC
    refine ⟨?_, ?_, ?_⟩
    · simp [gameReducer, markAction, hR, hP, hC]
    · simp [gameReducer, markAction, hR, hP, hC]
    · have hstate1 : { g with
          rounds := g.rounds.set g.activeRound
            { round with
              attempts := setAtt round.attempts player.id
                (fillPending draws player.percentage 0 makes) } } = g := by
        rw [fillPending_id 0 makes hnomem,
          setAtt_id (lookupAtt_nodup_eq hNodup hM)]
        show { g with rounds := g.rounds.set g.activeRound round } = g
        rw [set_eq_self_of_getElem? _ _ _ hR0]
      have hCW : checkWinners g = Except.ok [w] := by
        simp [checkWinners, hR, hW]
      have hr1 : { round with winner := some w } = round := by
        rw [← hRW]
      have hend : endRound newId g = Except.ok g := by
        simp only [endRound, hCW, hR]
        rw [if_neg (by simp : ¬([w].length > 1))]
        rw [if_pos (by simp : [w].length = 1)]
        simp only [List.getElem?_cons_zero, checkGameOver]
        rw [hr1, set_eq_self_of_getElem? _ _ _ hR0]
        have hproj : checkGameOverAux
            ({ g with rounds := g.rounds } : Game).players
            (winsToFinish ({ g with rounds := g.rounds } : Game).bestOf)
            ({ g with rounds := g.rounds } : Game).rounds [] =
            Except.ok (some p) := hGO
        rw [hproj]
        show Except.ok ({ g with winner := some p } : Game) = Except.ok g
        rw [← hg]
      simp only [gameReducer, simulateAction, hR, hP, hC, Bool.false_eq_true, if_false,
        hM]
      rw [hstate1]
      exact hend
  · intro hC
    refine ⟨?_, ?_, ?_⟩
    · simp [gameReducer, simulateAction, hR, hP, hC]
    · simp [gameReducer, markAction, hR, hP, hC, hM, findIdx?_isNone_eq_none hnomem 0]
    · simp [gameReducer, markAction, hR, hP, hC, hM, findIdx?_isNone_eq_none hnomem 0]

def roundE1 : Round :=
  { id := "r1", name := "Round #1", order := ["alice", "bob"],
    attempts := [("alice", [some false]), ("bob", [some true])],
    activePlayer := 0, winner := some "bob" }

def roundE2 : Round :=
  { id := "r2", name := "Round #2", order := ["bob", "alice"],
    attempts := [("alice", [some false]), ("bob", [some true])],
    activePlayer := 0, winner := some "bob" }

def gameE : Game :=
  { id := "g", players := [alice, bob], rounds := [roundE1, roundE2],
    winner := some bob, bestOf := 3, attempts := 1, activeRound := 1 }

theorem claim8_witness :
    (bob.controlled = false →
      gameReducer drawsZero "n" gameE Action.make = Except.ok gameE ∧
      gameReducer drawsZero "n" gameE Action.miss = Except.ok gameE ∧
      gameReducer drawsZero "n" gameE Action.simulate = Except.ok gameE) ∧
    (bob.controlled = true →
      gameReducer drawsZero "n" gameE Action.simulate = Except.ok gameE ∧
      gameReducer drawsZero "n" gameE Action.make =
        Except.error "Invalid action, no more makes left" ∧
      gameReducer drawsZero "n" gameE Action.miss =
        Except.error "Invalid action, no more makes left") :=
  claim8_after_match_end drawsZero "n" gameE rfl rfl rfl (by decide) (by decide) rfl
    (by decide) rfl


theorem stateInvariant_spec {g : Game} : stateInvariant g = true ↔
    (nodupIds (g.players.map (fun p => p.id)) = true ∧
      ∀ r ∈ g.rounds, roundOk g r = true) := by
  rw [stateInvariant, Bool.and_eq_true, List.all_eq_true]

theorem roundOk_spec {g : Game} {r : Round} : roundOk g r = true ↔
    (roundKeysCover g r = true ∧ roundLensEq r = true ∧
      nodupIds (keysOf r.attempts) = true ∧ roundKeysFromRoster g r = true ∧
      roundWinnerInRoster g r = true) := by
  rw [roundOk, Bool.and_eq_true, Bool.and_eq_true, Bool.and_eq_true, Bool.and_eq_true]

theorem winnerConsistent_spec {g : Game} {r : Round} (h : winnerConsistent g = true)
    (hR : g.rounds[g.activeRound]? = some r) {w : String} (hw : r.winner = some w) :
    checkWinnersAux r.attempts 0 [] = [w] := by
  unfold winnerConsistent at h
  rw [hR] at h
  simp only [] at h
  rw [hw] at h
  simpa using h

theorem roundKeysCover_of {g g' : Game} {r r' : Round} (hp : g'.players = g.players)
    (hk : keysOf r'.attempts = keysOf r.attempts) (h : roundKeysCover g r = true) :
    roundKeysCover g' r' = true := by
  rw [roundKeysCover, hp, hk]
  exact h

theorem roundKeysFromRoster_of {g g' : Game} {r r' : Round} (hp : g'.players = g.players)
    (hk : keysOf r'.attempts = keysOf r.attempts) (h : roundKeysFromRoster g r = true) :
    roundKeysFromRoster g' r' = true := by
  rw [roundKeysFromRoster, hp, hk]
  exact h

theorem mem_setAtt {m : List (String × List (Option Bool))} {k : String}
    {v : List (Option Bool)} {e' : String × List (Option Bool)} (h : e' ∈ setAtt m k v) :
    e' ∈ m ∨ ∃ e ∈ m, e.1 = k ∧ e' = (e.1, v) := by
  rcases List.mem_map.mp h with ⟨e, hem, heq⟩
  by_cases hk : e.1 = k
  · right
    exact ⟨e, hem, hk, by rw [← heq, if_pos hk]⟩
  · left
    rw [← heq, if_neg hk]
    exact hem

theorem lensEqB_spec {m : List (String × List (Option Bool))} : lensEqB m = true ↔
    ∀ e1 ∈ m, ∀ e2 ∈ m, e1.2.length = e2.2.length := by
  rw [lensEqB, List.all_eq_true]
  constructor
  · intro h e1 h1 e2 h2
    have := List.all_eq_true.mp (h e1 h1) e2 h2
    simpa using this
  · intro h e1 h1
    rw [List.all_eq_true]
    intro e2 h2
    simpa using h e1 h1 e2 h2

theorem lensEqB_setAtt {m : List (String × List (Option Bool))} {k : String}
    {v makes : List (Option Bool)}
    (hM : lookupAtt m k = some makes) (hv : v.length = makes.length)
    (h : lensEqB m = true) : lensEqB (setAtt m k v) = true := by
  obtain ⟨eM, hfind⟩ : ∃ eM, m.find? (fun e2 => e2.1 = k) = some eM := by
    rw [lookupAtt] at hM
    cases hf : m.find? (fun e2 => e2.1 = k) with
    | none => rw [hf] at hM; exact Option.noConfusion hM
    | some eM => exact ⟨eM, rfl⟩
  have hmemM := List.mem_of_find?_eq_some hfind
  have heM2 : eM.2 = makes := by
    rw [lookupAtt, hfind] at hM
    exact Option.some.inj hM
  rw [lensEqB_spec] at h ⊢
  have hlen : ∀ e' ∈ setAtt m k v, e'.2.length = eM.2.length := by
    intro e' he'
    rcases mem_setAtt he' with hm | ⟨e, hm, _, heq⟩
    · exact h e' hm eM hmemM
    · rw [heq, heM2]
      exact hv
  intro e1 h1 e2 h2
  rw [hlen e1 h1, hlen e2 h2]

theorem lensEqB_mapAppend {m : List (String × List (Option Bool))}
    (h : lensEqB m = true) :
    lensEqB (m.map (fun e => (e.1, e.2 ++ [none]))) = true := by
  rw [lensEqB_spec] at h ⊢
  intro e1 h1 e2 h2
  rcases List.mem_map.mp h1 with ⟨a1, ha1, heq1⟩
  rcases List.mem_map.mp h2 with ⟨a2, ha2, heq2⟩
  rw [← heq1, ← heq2]
  simp [h a1 ha1 a2 ha2]

theorem keysOf_roster_map {players : List Player} {n : Nat} :
    keysOf (players.map (fun p => (p.id, List.replicate n none))) =
      players.map (fun p => p.id) := by
  rw [keysOf, List.map_map]
  rfl

theorem findIdx?_exists {p : Option Bool → Bool} :
    ∀ (l : List (Option Bool)) (i j : Nat), List.findIdx? p l i = some j →
      ∃ a ∈ l, p a = true := by
  intro l
  induction l with
  | nil => intro i j h; simp [List.findIdx?_nil] at h
  | cons a rest ih =>
    intro i j h
    rw [List.findIdx?_cons] at h
    by_cases hp : p a = true
    · exact ⟨a, by simp, hp⟩
    · rw [if_neg hp] at h
      rcases ih (i + 1) j h with ⟨a2, ha2, hpa2⟩
      exact ⟨a2, by simp [ha2], hpa2⟩


theorem roundWinnerInRoster_of {g g' : Game} {r r' : Round} (hp : g'.players = g.players)
    (hw : r'.winner = r.winner) (h : roundWinnerInRoster g r = true) :
    roundWinnerInRoster g' r' = true := by
  unfold roundWinnerInRoster at h ⊢
  rw [hw, hp]
  exact h

theorem roundOk_players {g g' : Game} {r : Round} (hp : g'.players = g.players)
    (h : roundOk g r = true) : roundOk g' r = true := by
  rw [roundOk_spec] at h ⊢
  obtain ⟨h1, h2, h3, h4, h5⟩ := h
  exact ⟨roundKeysCover_of hp rfl h1, h2, h3, roundKeysFromRoster_of hp rfl h4,
    roundWinnerInRoster_of hp rfl h5⟩

theorem find?_isSome_of_winnerInRoster {g : Game} {r : Round} {w : String}
    (h : roundWinnerInRoster g r = true) (hw : r.winner = some w) :
    (g.players.find? (fun p => p.id = w)).isSome = true := by
  unfold roundWinnerInRoster at h
  rw [hw] at h
  rw [List.find?_isSome]
  rcases List.any_eq_true.mp h with ⟨p, hp, hpw⟩
  exact ⟨p, hp, hpw⟩

theorem find?_isSome_of_key {g : Game} {r : Round} {k : String}
    (h : roundKeysFromRoster g r = true) (hk : k ∈ keysOf r.attempts) :
    (g.players.find? (fun p => p.id = k)).isSome = true := by
  rw [roundKeysFromRoster, List.all_eq_true] at h
  rw [List.find?_isSome]
  rcases List.any_eq_true.mp (h k hk) with ⟨p, hp, hpk⟩
  exact ⟨p, hp, hpk⟩

/-- `endRound` preserves the state invariant (on a well-formed input) and
changes a round's `winner` only to the unique leader of the round that
was active at entry. -/
theorem invariant_of_endRound {newId : String} {g g' : Game} {r : Round}
    (hInv : stateInvariant g = true)
    (hR : g.rounds[g.activeRound]? = some r)
    (hOk : endRound newId g = Except.ok g') :
    stateInvariant g' = true ∧
      ∀ n r0 r0' w, g.rounds[n]? = some r0 → g'.rounds[n]? = some r0' →
        r0.winner = some w →
        (r0'.winner = some w ∨
          (n = g.activeRound ∧ ∃ w2, checkWinnersAux r.attempts 0 [] = [w2] ∧
            r0'.winner = some w2)) := by
  obtain ⟨hnd, hall⟩ := stateInvariant_spec.mp hInv
  have hrOk := roundOk_spec.mp (hall r (List.getElem?_mem hR))
  have hKeys : ∀ k ∈ keysOf r.attempts, k = "" ∨
      (g.players.find? (fun p2 => p2.id = k)).isSome = true :=
    fun k hk => Or.inr (find?_isSome_of_key hrOk.2.2.2.1 hk)
  have hWinners : ∀ r2 ∈ g.rounds, ∀ w2, r2.winner = some w2 → w2 = "" ∨
      (g.players.find? (fun p2 => p2.id = w2)).isSome = true := by
    intro r2 hr2 w2 hw2
    exact Or.inr (find?_isSome_of_winnerInRoster
      (roundOk_spec.mp (hall r2 hr2)).2.2.2.2 hw2)
  obtain ⟨g2, r', hend, hplayers, hget, hatt, hwin, hothers, hlens⟩ :=
    endRound_spec hR hKeys hWinners
  have hg2 : g2 = g' := by
    rw [hOk] at hend
    exact (Except.ok.inj hend).symm
  subst hg2
  have hkeysEq : keysOf r'.attempts = keysOf r.attempts := by
    rcases hatt with h1 | h1
    · rw [h1]
    · rw [h1, keysOf_mapAppend]
  have hrOk' : roundOk g2 r' = true := by
    rw [roundOk_spec]
    refine ⟨roundKeysCover_of hplayers hkeysEq hrOk.1, ?_, ?_, ?_, ?_⟩
    · rw [roundLensEq] at hrOk ⊢
      rcases hatt with h1 | h1
      · rw [h1]; exact hrOk.2.1
      · rw [h1]; exact lensEqB_mapAppend hrOk.2.1
    · rw [hkeysEq]; exact hrOk.2.2.1
    · exact roundKeysFromRoster_of hplayers hkeysEq hrOk.2.2.2.1
    · rcases hwin with h1 | ⟨w2, hcw, h1⟩
      · exact roundWinnerInRoster_of hplayers h1 hrOk.2.2.2.2
      · unfold roundWinnerInRoster
        rw [h1]
        have hw2keys : w2 ∈ keysOf r.attempts := by
          rcases checkWinnersAux_mem hcw w2 (by simp) with h2 | h2
          · simp at h2
          · exact h2
        rw [roundKeysFromRoster, List.all_eq_true] at hrOk
        have := hrOk.2.2.2.1 w2 hw2keys
        rw [hplayers]
        simpa using this
  constructor
  · rw [stateInvariant_spec]
    refine ⟨by rw [hplayers]; exact hnd, ?_⟩
    intro r2' hr2'
    rcases List.mem_iff_getElem?.mp hr2' with ⟨n, hn⟩
    by_cases hni : n = g.activeRound
    · subst hni
      rw [hget] at hn
      rw [← Option.some.inj hn]
      exact hrOk'
    · by_cases hnlt : n < g.rounds.length
      · rw [hothers n hni hnlt] at hn
        exact roundOk_players hplayers (hall r2' (List.getElem?_mem hn))
      · rcases hlens with h1 | ⟨h1, rn, hrn, hrnAtt, hrnWin⟩
        · exfalso
          have := lt_of_getElem?_eq_some hn
          rw [h1] at this
          exact hnlt this
        · have hnlt2 := lt_of_getElem?_eq_some hn
          rw [h1] at hnlt2
          have hne : n = g.rounds.length := by omega
          subst hne
          rw [hrn] at hn
          rw [← Option.some.inj hn]
          rw [roundOk_spec]
          refine ⟨?_, ?_, ?_, ?_, ?_⟩
          · rw [roundKeysCover, hplayers, hrnAtt, keysOf_roster_map, List.all_eq_true]
            intro p hp
            simpa [List.elem_iff] using List.mem_map.mpr ⟨p, hp, rfl⟩
          · rw [roundLensEq, hrnAtt, lensEqB_spec]
            intro e1 h1 e2 h2
            rcases List.mem_map.mp h1 with ⟨p1, _, heq1⟩
            rcases List.mem_map.mp h2 with ⟨p2, _, heq2⟩
            rw [← heq1, ← heq2]
          · rw [hrnAtt, keysOf_roster_map]
            exact hnd
          · rw [roundKeysFromRoster, hplayers, hrnAtt, keysOf_roster_map,
              List.all_eq_true]
            intro k hk
            rcases List.mem_map.mp hk with ⟨p, hp, heq⟩
            rw [List.any_eq_true]
            exact ⟨p, hp, by simp [heq]⟩
          · unfold roundWinnerInRoster
            rw [hrnWin]
  · intro n r0 r0' w hg0 hg0' hw0
    by_cases hni : n = g.activeRound
    · subst hni
      rw [hR] at hg0
      rw [hget] at hg0'
      rw [← Option.some.inj hg0] at hw0
      rw [← Option.some.inj hg0']
      rcases hwin with h1 | ⟨w2, hcw, h1⟩
      · left; rw [h1]; exact hw0
      · right; exact ⟨rfl, w2, hcw, h1⟩
    · have hnlt := lt_of_getElem?_eq_some hg0
      rw [hothers n hni hnlt] at hg0'
      left
      rw [← Option.some.inj (hg0.symm.trans hg0')]
      exact hw0


/-- No round's `winner`, once set, is changed or cleared between the two
states. -/
def winnerMono (g g' : Game) : Prop :=
  ∀ (n : Nat) (r r' : Round) (w : String),
    g.rounds[n]? = some r → g'.rounds[n]? = some r' →
    r.winner = some w → r'.winner = some w

theorem winnerMono_refl {g : Game} : winnerMono g g := by
  unfold winnerMono
  intro n r r' w h h' hw
  rw [← Option.some.inj (h.symm.trans h')]
  exact hw

theorem bool_eq_false {x : Bool} (h : ¬(x = true)) : x = false := by
  cases x
  · rfl
  · exact absurd rfl h

/-- The round value with one player's sequence replaced keeps the
invariant of its game. -/
theorem roundOk_setAtt {g : Game} {round : Round} {pid : String}
    {makes v : List (Option Bool)}
    (hrOk : roundOk g round = true)
    (hM : lookupAtt round.attempts pid = some makes)
    (hv : v.length = makes.length) :
    roundOk g { round with attempts := setAtt round.attempts pid v } = true := by
  obtain ⟨h1, h2, h3, h4, h5⟩ := roundOk_spec.mp hrOk
  rw [roundOk_spec]
  exact ⟨roundKeysCover_of rfl keysOf_setAtt h1,
    lensEqB_setAtt hM hv h2,
    by rw [keysOf_setAtt]; exact h3,
    roundKeysFromRoster_of rfl keysOf_setAtt h4,
    roundWinnerInRoster_of rfl rfl h5⟩

/-- The state with the active round's attempts updated (one player's
sequence replaced by an equal-length one) keeps the invariant. -/
theorem stateInvariant_set_active {g : Game} {round : Round} {pid : String}
    {makes v : List (Option Bool)}
    (hInv : stateInvariant g = true)
    (hR0 : g.rounds[g.activeRound]? = some round)
    (hM : lookupAtt round.attempts pid = some makes)
    (hv : v.length = makes.length) :
    stateInvariant { g with
      rounds := g.rounds.set g.activeRound
        { round with attempts := setAtt round.attempts pid v } } = true := by
  obtain ⟨hnd, hall⟩ := stateInvariant_spec.mp hInv
  rw [stateInvariant_spec]
  refine ⟨hnd, ?_⟩
  intro r2 hr2
  rcases List.mem_or_eq_of_mem_set hr2 with h2 | h2
  · exact roundOk_players rfl (hall r2 h2)
  · rw [h2]
    exact roundOk_players rfl
      (roundOk_setAtt (hall round (List.getElem?_mem hR0)) hM hv)

/-- The `make`/`miss` handler preserves the invariant and never rewrites
an already-set round winner. -/
theorem invariant_of_mark {newId : String} {b : Bool} {g g' : Game}
    (hInv : stateInvariant g = true) (hCons : winnerConsistent g = true)
    (hOk : markAction newId b g = Except.ok g') :
    stateInvariant g' = true ∧ winnerMono g g' := by
  cases hRc : getActiveRound g with
  | error e => simp [markAction, hRc] at hOk
  | ok round =>
  cases hPc : getActivePlayer g with
  | error e => simp [markAction, hRc, hPc] at hOk
  | ok player =>
  by_cases hC : player.controlled = true
  · cases hM : lookupAtt round.attempts player.id with
    | none => simp [markAction, hRc, hPc, hC, hM] at hOk
    | some makes =>
    cases hJ : makes.findIdx? (fun a => a.isNone) with
    | none => simp [markAction, hRc, hPc, hC, hM, hJ] at hOk
    | some j =>
    have hR0 := getActiveRound_eq_ok.mp hRc
    have hlt := lt_of_getElem?_eq_some hR0
    have hvlen : (makes.set j (some b)).length = makes.length :=
      List.length_set makes j (some b)
    have hInv1 := stateInvariant_set_active hInv hR0 hM hvlen
    have hpend : none ∈ makes := by
      rcases findIdx?_exists makes 0 j hJ with ⟨a, ha, hpa⟩
      rw [Option.isNone_iff_eq_none] at hpa
      rw [← hpa]
      exact ha
    have hNoWin : round.winner = none := by
      cases hwcase : round.winner with
      | none => rfl
      | some w0 =>
        exfalso
        obtain ⟨e, hfind, he1, he2⟩ :
            ∃ e, round.attempts.find? (fun e2 => e2.1 = player.id) = some e ∧
              e.1 = player.id ∧ e.2 = makes := by
          rw [lookupAtt] at hM
          cases hfind : round.attempts.find? (fun e2 => e2.1 = player.id) with
          | none => rw [hfind] at hM; exact Option.noConfusion hM
          | some e =>
            rw [hfind] at hM
            exact ⟨e, rfl, by simpa using List.find?_some hfind, Option.some.inj hM⟩
        have hempty := checkWinnersAux_pending
          ⟨e, List.mem_of_find?_eq_some hfind,
            countMakes_eq_none.mpr (he2 ▸ hpend)⟩ 0 []
        have := winnerConsistent_spec hCons hR0 hwcase
        rw [hempty] at this
        exact List.noConfusion this
    by_cases hLast : j + 1 = makes.length
    · have hOk2 : endRound newId { g with
          rounds := g.rounds.set g.activeRound
            { round with
              attempts := setAtt round.attempts player.id (makes.set j (some b)) } } =
          Except.ok g' := by
        rw [← markAction_fills_last hRc hPc hC hM hJ hLast]
        exact hOk
      have hR1 : ({ g with
          rounds := g.rounds.set g.activeRound
            { round with
              attempts := setAtt round.attempts player.id (makes.set j (some b)) } }
          : Game).rounds[g.activeRound]? = some
          { round with
            attempts := setAtt round.attempts player.id (makes.set j (some b)) } :=
        List.getElem?_set_self hlt
      obtain ⟨hInv', hmono1⟩ := invariant_of_endRound hInv1 hR1 hOk2
      refine ⟨hInv', ?_⟩
      intro n r0 r0' w hg0 hg0' hw0
      by_cases hni : n = g.activeRound
      · exfalso
        rw [hni, hR0] at hg0
        rw [← Option.some.inj hg0] at hw0
        rw [hw0] at hNoWin
        exact Option.noConfusion hNoWin
      · have hnlt := lt_of_getElem?_eq_some hg0
        have hst : ({ g with
            rounds := g.rounds.set g.activeRound
              { round with
                attempts := setAtt round.attempts player.id (makes.set j (some b)) } }
            : Game).rounds[n]? = some r0 := by
          simpa [List.getElem?_set_ne (fun hc => hni hc.symm)] using hg0
        rcases hmono1 n r0 r0' w hst hg0' hw0 with h2 | ⟨h2, _⟩
        · exact h2
        · exact absurd h2 hni
    · have hOk2 : (Except.ok { g with
          rounds := g.rounds.set g.activeRound
            { round with
              attempts := setAtt round.attempts player.id (makes.set j (some b)) } }
          : Except String Game) = Except.ok g' := by
        rw [← hOk]
        simp [markAction, hRc, hPc, hC, hM, hJ, hLast]
      rw [← Except.ok.inj hOk2]
      refine ⟨hInv1, ?_⟩
      intro n r0 r0' w hg0 hg0' hw0
      by_cases hni : n = g.activeRound
      · rw [hni] at hg0 hg0'
        rw [hR0] at hg0
        rw [List.getElem?_set_self hlt] at hg0'
        rw [← Option.some.inj hg0'] 
        rw [← Option.some.inj hg0] at hw0
        exact hw0
      · rw [List.getElem?_set_ne (fun hc => hni hc.symm)] at hg0'
        rw [← Option.some.inj (hg0.symm.trans hg0')]
        exact hw0
  · have hCf := bool_eq_false hC
    have hOk2 : (Except.ok g : Except String Game) = Except.ok g' := by
      rw [← hOk]
      simp [markAction, hRc, hPc, hCf]
    rw [← Except.ok.inj hOk2]
    exact ⟨hInv, winnerMono_refl⟩

/-- The `simulate` handler preserves the invariant and never rewrites an
already-set round winner. -/
theorem invariant_of_sim {draws : Nat → Nat} {newId : String} {g g' : Game}
    (hInv : stateInvariant g = true) (hCons : winnerConsistent g = true)
    (hOk : simulateAction draws newId g = Except.ok g') :
    stateInvariant g' = true ∧ winnerMono g g' := by
  cases hRc : getActiveRound g with
  | error e => simp [simulateAction, hRc] at hOk
  | ok round =>
  cases hPc : getActivePlayer g with
  | error e => simp [simulateAction, hRc, hPc] at hOk
  | ok player =>
  by_cases hC : player.controlled = true
  · have hOk2 : (Except.ok g : Except String Game) = Except.ok g' := by
      rw [← hOk]
      simp [simulateAction, hRc, hPc, hC]
    rw [← Except.ok.inj hOk2]
    exact ⟨hInv, winnerMono_refl⟩
  · have hCf := bool_eq_false hC
    cases hM : lookupAtt round.attempts player.id with
    | none => simp [simulateAction, hRc, hPc, hCf, hM] at hOk
    | some makes =>
    have hR0 := getActiveRound_eq_ok.mp hRc
    have hlt := lt_of_getElem?_eq_some hR0
    have hvlen : (fillPending draws player.percentage 0 makes).length = makes.length :=
      fillPending_length 0 makes
    have hInv1 := stateInvariant_set_active hInv hR0 hM hvlen
    have hOk2 : endRound newId { g with
        rounds := g.rounds.set g.activeRound
          { round with
            attempts := setAtt round.attempts player.id
              (fillPending draws player.percentage 0 makes) } } = Except.ok g' := by
      rw [← hOk]
      simp [simulateAction, hRc, hPc, hCf, hM]
    have hR1 : ({ g with
        rounds := g.rounds.set g.activeRound
          { round with
            attempts := setAtt round.attempts player.id
              (fillPending draws player.percentage 0 makes) } }
        : Game).rounds[g.activeRound]? = some
        { round with
          attempts := setAtt round.attempts player.id
            (fillPending draws player.percentage 0 makes) } :=
      List.getElem?_set_self hlt
    obtain ⟨hInv', hmono1⟩ := invariant_of_endRound hInv1 hR1 hOk2
    refine ⟨hInv', ?_⟩
    intro n r0 r0' w hg0 hg0' hw0
    by_cases hni : n = g.activeRound
    · subst hni
      rw [hR0] at hg0
      have hr0 : round = r0 := Option.some.inj hg0
      have hcw : checkWinnersAux round.attempts 0 [] = [w] :=
        winnerConsistent_spec hCons hR0 (hr0 ▸ hw0)
      have hnp := checkWinnersAux_no_pending hcw (by simp)
      obtain ⟨e, hfind, he1, he2⟩ :
          ∃ e, round.attempts.find? (fun e2 => e2.1 = player.id) = some e ∧
            e.1 = player.id ∧ e.2 = makes := by
        rw [lookupAtt] at hM
        cases hfind : round.attempts.find? (fun e2 => e2.1 = player.id) with
        | none => rw [hfind] at hM; exact Option.noConfusion hM
        | some e =>
          rw [hfind] at hM
          exact ⟨e, rfl, by simpa using List.find?_some hfind, Option.some.inj hM⟩
      have hnomem : none ∉ makes := fun hc =>
        hnp e (List.mem_of_find?_eq_some hfind) (countMakes_eq_none.mpr (he2 ▸ hc))
      have hnodupkeys : nodupIds (keysOf round.attempts) = true := by
        obtain ⟨_, hall⟩ := stateInvariant_spec.mp hInv
        exact (roundOk_spec.mp (hall round (List.getElem?_mem hR0))).2.2.1
      have hatt1 : setAtt round.attempts player.id
          (fillPending draws player.percentage 0 makes) = round.attempts := by
        rw [fillPending_id 0 makes hnomem]
        exact setAtt_id (lookupAtt_nodup_eq hnodupkeys hM)
      rcases hmono1 g.activeRound _ r0' w hR1 hg0'
          (show Round.winner { round with
              attempts := setAtt round.attempts player.id
                (fillPending draws player.percentage 0 makes) } = some w from
            hr0 ▸ hw0) with h2 | ⟨_, w2, hcw2, h2⟩
      · exact h2
      · have heq : w2 = w := by
          have hcw2' : checkWinnersAux round.attempts 0 [] = [w2] := by
            rw [← hatt1]
            exact hcw2
          rw [hcw2'] at hcw
          exact (List.cons.inj hcw).1
        rw [h2, heq]
    · have hnlt := lt_of_getElem?_eq_some hg0
      have hst : ({ g with
          rounds := g.rounds.set g.activeRound
            { round with
              attempts := setAtt round.attempts player.id
                (fillPending draws player.percentage 0 makes) } }
          : Game).rounds[n]? = some r0 := by
        simpa [List.getElem?_set_ne (fun hc => hni hc.symm)] using hg0
      rcases hmono1 n r0 r0' w hst hg0' hw0 with h2 | ⟨h2, _⟩
      · exact h2
      · exact absurd h2 hni

def bea : Player := { id := "bea", name := "Bea", percentage := 50, controlled := true }

def roundS : Round :=
  { id := "r1", name := "Round #1", order := ["alice"],
    attempts := [("alice", [none])], activePlayer := 0, winner := none }

def gameS : Game :=
  { id := "g", players := [alice], rounds := [roundS],
    winner := none, bestOf := 3, attempts := 1, activeRound := 0 }

/-- Claim C9, counterexample: the claim quantifies over every action, but
a (second) `start` action replaces the roster while keeping the old
rounds, so the new roster player has no key in round 1's attempts map:
the keys invariant is broken. -/
theorem claim9_counterexample :
    stateInvariant gameS = true ∧
      (gameReducer drawsZero "r2" gameS (Action.start [bea] 1 3)).map stateInvariant =
        Except.ok false := by
  decide

/-- Claim C9 as amended: restricted to the play actions `make`, `miss`
and `simulate` (a `start` action, whose precondition is an unstarted
game, may replace the roster and break the keys invariant), and with the
active round's recorded winner consistent with `checkWinners`: every
action that returns a state preserves the invariant (roster ids are
exactly the keys of every round's attempts map, attempt sequences within
one round have equal length), and never changes or clears a round's
already-set `winner`. -/
theorem claim9_invariant_preserved (draws : Nat → Nat) (newId : String)
    (g g' : Game) (act : Action)
    (hInv : stateInvariant g = true)
    (hCons : winnerConsistent g = true)
    (hAct : act = Action.make ∨ act = Action.miss ∨ act = Action.simulate)
    (hOk : gameReducer draws newId g act = Except.ok g') :
    stateInvariant g' = true ∧ winnerMono g g' := by
  rcases hAct with rfl | rfl | rfl
  · exact invariant_of_mark hInv hCons hOk
  · exact invariant_of_mark hInv hCons hOk
  · exact invariant_of_sim hInv hCons hOk

theorem claim9_witness :
    stateInvariant gameF = true ∧ winnerMono gameF gameF :=
  claim9_invariant_preserved drawsZero "n" gameF gameF Action.simulate (by decide)
    (by decide) (Or.inr (Or.inr rfl)) (by decide)

end Shooting
